import Mathlib

/-! # OLED menu controller (src/menu.c)

A shallow embedding of the Arduino sketch: the global variables become the
fields of `Menu.State`, every function of the sketch becomes a function on
that state, and the values the sketch reads from the hardware (the
potentiometer, the button pin, `millis()`) are explicit arguments.

* `int` values are `Int` (all indices stay far from the 16-bit limits).
* `unsigned long` time stamps are `Nat`; the only arithmetic on them is the
  subtraction `usub`, which is taken modulo `2^32`.
* Digital levels are `Bool`, with `HIGH = true` and `LOW = false`.
* The display and the serial port are write-only; what is written to them
  is appended to the logs `frames` and `serial`.
-/

namespace Menu

/-! ## Constants and tables -/

/-- Digital level `HIGH`. -/
abbrev HIGH : Bool := true

/-- Digital level `LOW`. -/
abbrev LOW : Bool := false

/-- Tag of the main menu, `enum MenuId`. -/
abbrev MENU_MAIN : Nat := 0

/-- Tag of the settings menu. -/
abbrev MENU_SETTINGS : Nat := 1

/-- Tag of the blink speed menu. -/
abbrev MENU_SPEED : Nat := 2

/-- Item labels of the main menu. -/
def mainItems : List String :=
  ["LED KI/BE", "LED villogas KI/BE", "Beallitasok"]

/-- Number of main menu items, `sizeof(mainItems) / sizeof(mainItems[0])`. -/
def mainItemCount : Int := mainItems.length

/-- Item labels of the settings menu. -/
def settingsItems : List String :=
  ["Villogasi sebesseg", "Vissza fo menube"]

/-- Number of settings menu items. -/
def settingsItemCount : Int := settingsItems.length

/-- Item labels of the speed menu. -/
def speedItems : List String :=
  ["Lassu", "Kozepes", "Gyors", "Vissza beallit.."]

/-- Number of speed menu items. -/
def speedItemCount : Int := speedItems.length

/-- Title lines, indexed by the menu tag. -/
def menuTitles : List String :=
  ["FO MENU", "BEALLITASOK", "VILLOGASI SEBESSEG"]

/-- Number of rows shown at once. -/
abbrev maxVisibleItems : Int := 5

/-- Debounce window of the button, in milliseconds. -/
abbrev debounceDelay : Nat := 50

/-- Number of values of an `unsigned long` (32 bits). -/
abbrev ULONG_MOD : Nat := 4294967296

/-- Subtraction of two `unsigned long` values, as C computes it: modulo `2^32`. -/
def usub (a b : Nat) : Nat :=
  (a % ULONG_MOD + ULONG_MOD - b % ULONG_MOD) % ULONG_MOD

/-- Modelled from the spec: the Arduino core function `map` is not part of the
repository; the spec describes the call `map(potValue, 0, 1023, 0, 5)` as a linear
map of the reading onto the fixed span 0..5 that sends 1023 to 5. This is the
core library formula, evaluated in `long` arithmetic with truncating division. -/
def map (x in_min in_max out_min out_max : Int) : Int :=
  Int.tdiv ((x - in_min) * (out_max - out_min)) (in_max - in_min) + out_min

/-! ## Outputs -/

/-- One line written to the serial port. -/
inductive SerialMsg where
  /-- The line `Gomb, menu=<menu> index=<index>` printed on entry of `handleButtonPress`. -/
  | gomb (menu : Nat) (index : Int)
  /-- A fixed line of text. -/
  | text (msg : String)
  deriving DecidableEq, Repr

/-- One menu row sent to the display. -/
structure Row where
  /-- Pixel row of the cursor. -/
  y : Int
  /-- Index `i` of the loop. -/
  index : Int
  /-- Whether `>` was printed in front of the row (otherwise a blank). -/
  marked : Bool
  /-- The text `items[i]`; `none` when the read is outside the table. -/
  itemText : Option String
  deriving DecidableEq, Repr

/-- What one `display.display()` call shows. -/
inductive Frame where
  /-- The cleared screen shown by `setup`. -/
  | blank
  /-- A drawn menu: the values of the globals used, the title `menuTitles[menu]`
  (`none` when the read is outside the table), the rows and the status line. -/
  | menu (menu : Nat) (selectedIndex viewOffset : Int) (title : Option String)
      (rows : List Row) (ledOn blinkMode : Bool) (status : String)
  deriving DecidableEq, Repr

/-! ## State -/

/-- The global variables of the sketch, the static `stableState` of `loop`, the
level of the LED pin and the two output logs. The defaults are the initial values
of the globals. -/
structure State where
  currentMenu : Nat := MENU_MAIN
  selectedIndex : Int := 0
  lastSelectedIndex : Int := -1
  lastMenu : Nat := 255
  viewOffset : Int := 0
  lastViewOffset : Int := -1
  lastButtonState : Bool := HIGH
  lastButtonTime : Nat := 0
  stableState : Bool := HIGH
  ledOn : Bool := false
  blinkMode : Bool := false
  lastBlinkTime : Nat := 0
  blinkInterval : Nat := 500
  ledPin : Bool := LOW
  frames : List Frame := []
  serial : List SerialMsg := []
  deriving DecidableEq, Repr

/-- The state at power-up, before `setup`. -/
def initState : State := {}

/-- What one pass of `loop` reads from the hardware: the potentiometer, the button
pin, and the three successive values of `millis()` (in `loop`, in
`handleButtonPress` and in `handleBlinking`). -/
structure Input where
  pot : Int
  reading : Bool
  now : Nat
  nowPress : Nat
  nowBlink : Nat
  deriving DecidableEq, Repr

/-! ## Menu logic -/

/-- Number of items of a menu; 0 for an unknown tag. -/
def getMenuItemCount (menuId : Nat) : Int :=
  if menuId = MENU_MAIN then mainItemCount
  else if menuId = MENU_SETTINGS then settingsItemCount
  else if menuId = MENU_SPEED then speedItemCount
  else 0

/-- The item table of a menu; `none` is the null pointer. -/
def getMenuItems (menuId : Nat) : Option (List String) :=
  if menuId = MENU_MAIN then some mainItems
  else if menuId = MENU_SETTINGS then some settingsItems
  else if menuId = MENU_SPEED then some speedItems
  else none

/-- The read `items[i]`. -/
def itemAt (items : Option (List String)) (i : Int) : Option String :=
  match items with
  | none => none
  | some l => if 0 ≤ i then l.get? i.toNat else none

/-- The scrolling step of `redrawMenuIfNeeded` (lines 174-183): bring the selection
into the window, then clamp the offset to `[0, max 0 (count - maxVisibleItems)]`. -/
def adjustViewOffset (selectedIndex viewOffset count : Int) : Int :=
  let viewOffset :=
    if selectedIndex < viewOffset then selectedIndex
    else if selectedIndex ≥ viewOffset + maxVisibleItems then
      selectedIndex - maxVisibleItems + 1
    else viewOffset
  let maxOffset := count - maxVisibleItems
  let maxOffset := if maxOffset < 0 then 0 else maxOffset
  let viewOffset := if viewOffset < 0 then 0 else viewOffset
  if viewOffset > maxOffset then maxOffset else viewOffset

/-- The row loop of `redrawMenuIfNeeded`:
`for (i = viewOffset; i < count && i < viewOffset + maxVisibleItems; i++)`.
The second bound stops the loop after `maxVisibleItems` rounds, which is the fuel
the caller passes. -/
def drawRows (items : Option (List String)) (selectedIndex count limit : Int) :
    Nat → Int → Int → List Row
  | 0, _, _ => []
  | fuel + 1, i, y =>
    if i < count ∧ i < limit then
      { y := y, index := i, marked := decide (i = selectedIndex), itemText := itemAt items i }
        :: drawRows items selectedIndex count limit fuel (i + 1) (y + 10)
    else []

/-- Text of the status line. -/
def statusLine (ledOn blinkMode : Bool) : String :=
  "LED:" ++ (if ledOn then "ON " else "OFF") ++ " BLINK:" ++ (if blinkMode then "ON" else "OFF")

/-- Draw the menu on the display, only if something changed since the last draw. -/
def redrawMenuIfNeeded (s : State) : State :=
  if s.currentMenu = s.lastMenu ∧ s.selectedIndex = s.lastSelectedIndex ∧
      s.viewOffset = s.lastViewOffset then s
  else
    let count := getMenuItemCount s.currentMenu
    if count ≤ 0 then s
    else
      let selectedIndex := if s.selectedIndex < 0 then 0 else s.selectedIndex
      let selectedIndex := if selectedIndex ≥ count then count - 1 else selectedIndex
      let viewOffset := adjustViewOffset selectedIndex s.viewOffset count
      let rows := drawRows (getMenuItems s.currentMenu) selectedIndex count
        (viewOffset + maxVisibleItems) maxVisibleItems.toNat viewOffset 12
      let frame := Frame.menu s.currentMenu selectedIndex viewOffset
        (menuTitles.get? s.currentMenu) rows s.ledOn s.blinkMode
        (statusLine s.ledOn s.blinkMode)
      { s with
        selectedIndex := selectedIndex
        viewOffset := viewOffset
        frames := s.frames ++ [frame]
        lastMenu := s.currentMenu
        lastSelectedIndex := selectedIndex
        lastViewOffset := viewOffset }

/-- Potentiometer reading to selected row. -/
def updateSelectionFromPot (potValue : Int) (s : State) : State :=
  let count := getMenuItemCount s.currentMenu
  if count ≤ 0 then s
  else
    let newIndex := map potValue 0 1023 0 5
    let newIndex := if newIndex < 0 then 0 else newIndex
    let newIndex := if newIndex ≥ count then count - 1 else newIndex
    if newIndex ≠ s.selectedIndex then { s with selectedIndex := newIndex } else s

/-- The `switch (selectedIndex)` of the main menu. -/
def pressMain (now : Nat) (s : State) : State :=
  if s.selectedIndex = 0 then
    let ledOn := !s.ledOn
    { s with
      ledOn := ledOn
      blinkMode := false
      ledPin := if ledOn then HIGH else LOW
      serial := s.serial ++ [SerialMsg.text (if ledOn then "LED BE" else "LED KI")] }
  else if s.selectedIndex = 1 then
    let blinkMode := !s.blinkMode
    if !blinkMode then
      { s with
        blinkMode := blinkMode
        ledPin := if s.ledOn then HIGH else LOW
        serial := s.serial ++ [SerialMsg.text "Villogas KI"] }
    else
      { s with
        blinkMode := blinkMode
        serial := s.serial ++ [SerialMsg.text "Villogas BE"]
        lastBlinkTime := now }
  else if s.selectedIndex = 2 then
    { s with currentMenu := MENU_SETTINGS, selectedIndex := 0, viewOffset := 0 }
  else s

/-- The `switch (selectedIndex)` of the settings menu. -/
def pressSettings (s : State) : State :=
  if s.selectedIndex = 0 then
    { s with currentMenu := MENU_SPEED, selectedIndex := 0, viewOffset := 0 }
  else if s.selectedIndex = 1 then
    { s with currentMenu := MENU_MAIN, selectedIndex := 0, viewOffset := 0 }
  else s

/-- The `switch (selectedIndex)` of the speed menu. -/
def pressSpeed (s : State) : State :=
  if s.selectedIndex = 0 then
    { s with blinkInterval := 800, serial := s.serial ++ [SerialMsg.text "Sebesseg: LASSU"] }
  else if s.selectedIndex = 1 then
    { s with blinkInterval := 400, serial := s.serial ++ [SerialMsg.text "Sebesseg: KOZEPES"] }
  else if s.selectedIndex = 2 then
    { s with blinkInterval := 150, serial := s.serial ++ [SerialMsg.text "Sebesseg: GYORS"] }
  else if s.selectedIndex = 3 then
    { s with currentMenu := MENU_SETTINGS, selectedIndex := 0, viewOffset := 0 }
  else s

/-- Handling of an accepted button press; `now` is the value of `millis()` read in
the blink branch. -/
def handleButtonPress (now : Nat) (s : State) : State :=
  let s := { s with serial := s.serial ++ [SerialMsg.gomb s.currentMenu s.selectedIndex] }
  let s :=
    if s.currentMenu = MENU_MAIN then pressMain now s
    else if s.currentMenu = MENU_SETTINGS then pressSettings s
    else if s.currentMenu = MENU_SPEED then pressSpeed s
    else s
  { s with lastSelectedIndex := -1, lastMenu := 255, lastViewOffset := -1 }

/-- LED blinking; `now` is the value of `millis()`. -/
def handleBlinking (now : Nat) (s : State) : State :=
  if !s.blinkMode then s
  else if usub now s.lastBlinkTime ≥ s.blinkInterval then
    { s with
      lastBlinkTime := now
      ledPin := if s.ledPin = HIGH then LOW else HIGH }
  else s

/-- The button part of `loop` (lines 115-132): debounce, and call
`handleButtonPress` when the accepted level becomes `LOW`. -/
def debounceButton (reading : Bool) (now nowPress : Nat) (s : State) : State :=
  let s := if reading ≠ s.lastButtonState then { s with lastButtonTime := now } else s
  let s :=
    if usub now s.lastButtonTime > debounceDelay then
      if reading ≠ s.stableState then
        let s := { s with stableState := reading }
        if s.stableState = LOW then handleButtonPress nowPress s else s
      else s
    else s
  { s with lastButtonState := reading }

/-- One pass of `loop`. -/
def loop (inp : Input) (s : State) : State :=
  let s := updateSelectionFromPot inp.pot s
  let s := redrawMenuIfNeeded s
  let s := debounceButton inp.reading inp.now inp.nowPress s
  handleBlinking inp.nowBlink s

/-- The function `setup`; `displayOk` is the result of `display.begin`. When the
display does not start, `setup` never returns (`none`). -/
def setup (displayOk : Bool) (s : State) : Option State :=
  let s := { s with ledPin := LOW }
  if !displayOk then none
  else
    let s := { s with
      frames := s.frames ++ [Frame.blank]
      serial := s.serial ++ [SerialMsg.text "OLED menu rendszer indul..."] }
    some (redrawMenuIfNeeded s)

/-- Run `loop` over a list of inputs, first input first. -/
def runLoop (s : State) (inps : List Input) : State :=
  inps.foldl (fun st inp => loop inp st) s

/-- Whether a serial line is the entry line of `handleButtonPress`. -/
def SerialMsg.isGomb : SerialMsg → Bool
  | SerialMsg.gomb _ _ => true
  | SerialMsg.text _ => false

/-- Number of `handleButtonPress` calls so far, read off the serial log: every call
prints exactly one `Gomb, menu=` line, and nothing else prints one. -/
def pressCount (s : State) : Nat :=
  s.serial.countP SerialMsg.isGomb

/-- Number of menu item rows of the current menu. -/
def itemCount (s : State) : Int := getMenuItemCount s.currentMenu

/-- The three invariants of the menu state: the selection is an item of the current
menu, it lies in the window, and the window offset is within its range. -/
def MenuInv (s : State) : Prop :=
  (0 ≤ s.selectedIndex ∧ s.selectedIndex < itemCount s) ∧
  (s.viewOffset ≤ s.selectedIndex ∧ s.selectedIndex < s.viewOffset + maxVisibleItems) ∧
  (0 ≤ s.viewOffset ∧ s.viewOffset ≤ max 0 (itemCount s - maxVisibleItems))

/-- One call of a function of the sketch, with the hardware values it reads. -/
inductive Op where
  /-- A call of `updateSelectionFromPot` that reads `r` from the potentiometer. -/
  | pot (r : Int)
  /-- A call of `redrawMenuIfNeeded`. -/
  | redraw
  /-- A call of `handleButtonPress` at time `now`. -/
  | press (now : Nat)
  /-- A call of `handleBlinking` at time `now`. -/
  | blink (now : Nat)
  deriving DecidableEq, Repr

/-- Effect of one operation. -/
def applyOp (s : State) : Op → State
  | Op.pot r => updateSelectionFromPot r s
  | Op.redraw => redrawMenuIfNeeded s
  | Op.press now => handleButtonPress now s
  | Op.blink now => handleBlinking now s

/-- Effect of a sequence of operations, first operation first. -/
def runOps (s : State) (ops : List Op) : State :=
  ops.foldl applyOp s

/-- The debouncer fields of two states agree. -/
def SameButton (s t : State) : Prop :=
  t.lastButtonState = s.lastButtonState ∧ t.lastButtonTime = s.lastButtonTime ∧
  t.stableState = s.stableState

/-- The test of `loop` under which a reading becomes the new `stableState`: the
elapsed time since the (possibly just reset) `lastButtonTime` exceeds
`debounceDelay` and the reading differs from `stableState`. -/
def Accepts (reading : Bool) (now : Nat) (s : State) : Prop :=
  usub now (if reading ≠ s.lastButtonState then now else s.lastButtonTime) > debounceDelay ∧
  reading ≠ s.stableState

/-- The acceptance test is a comparison of numbers and of levels. -/
instance instDecidableAccepts (reading : Bool) (now : Nat) (s : State) :
    Decidable (Accepts reading now s) := by
  unfold Accepts
  exact inferInstance

/-- A pass of `loop` with the potentiometer at 0 in which the three readings of
`millis()` give the same value `now`. -/
def tickAt (reading : Bool) (now : Nat) : Input :=
  { pot := 0, reading := reading, now := now, nowPress := now, nowBlink := now }

/-- A pass of `loop` that reads `pot` from the potentiometer and in which the three
readings of `millis()` give the same value `now`. -/
def tickPot (pot : Int) (reading : Bool) (now : Nat) : Input :=
  { pot := pot, reading := reading, now := now, nowPress := now, nowBlink := now }

/-- The state `s` with the three debouncer fields replaced. -/
def withButton (s : State) (lastButtonState : Bool) (lastButtonTime : Nat)
    (stableState : Bool) : State :=
  { s with
    lastButtonState := lastButtonState
    lastButtonTime := lastButtonTime
    stableState := stableState }

/-- The state in which a successful `setup` returns. -/
def bootState : State :=
  redrawMenuIfNeeded
    { initState with
      ledPin := LOW
      frames := [Frame.blank]
      serial := [SerialMsg.text "OLED menu rendszer indul..."] }

/-- The states of an execution: the state at power-up, the state after `setup`, and
from there every state after a call of one of the four functions or after a whole
pass of `loop`. -/
inductive Reachable : State → Prop where
  | start : Reachable initState
  | boot : Reachable bootState
  | op (s : State) (o : Op) : Reachable s → Reachable (applyOp s o)
  | tick (s : State) (inp : Input) : Reachable s → Reachable (loop inp s)

/-- The operation is a call of `updateSelectionFromPot` or of `handleBlinking`. -/
def Op.isQuiet : Op → Bool
  | Op.pot _ => true
  | Op.blink _ => true
  | Op.redraw => false
  | Op.press _ => false

/-- The values the status and menu lines are drawn from. -/
def snapshot (s : State) : Nat × Int × Int × Bool × Bool :=
  (s.currentMenu, s.selectedIndex, s.viewOffset, s.ledOn, s.blinkMode)

/-- The comparison at the head of `redrawMenuIfNeeded` finds nothing changed. -/
def Rendered (s : State) : Prop :=
  s.currentMenu = s.lastMenu ∧ s.selectedIndex = s.lastSelectedIndex ∧
  s.viewOffset = s.lastViewOffset

/-- The values a frame was drawn from; `none` for the cleared screen. -/
def Frame.drawnFrom : Frame → Option (Nat × Int × Int × Bool × Bool)
  | Frame.blank => none
  | Frame.menu m sel view _ _ ledOn blinkMode _ => some (m, sel, view, ledOn, blinkMode)

/-- The rows of a frame; none for the cleared screen. -/
def Frame.rows : Frame → List Row
  | Frame.blank => []
  | Frame.menu _ _ _ _ rs _ _ _ => rs

/-- The title of a frame. -/
def Frame.title : Frame → Option String
  | Frame.blank => none
  | Frame.menu _ _ _ ttl _ _ _ _ => ttl

/-- The most recent draw used the current values of the menu and LED fields. -/
def LastDrawCurrent (s : State) : Prop :=
  (s.frames.getLast?).bind Frame.drawnFrom = some (snapshot s)

/-- While the last-rendered sentinels are valid, the most recent frame was drawn from
them and from the current `ledOn` and `blinkMode`. -/
def SentinelInv (s : State) : Prop :=
  s.lastMenu ≠ 255 →
    (s.frames.getLast?).bind Frame.drawnFrom =
      some (s.lastMenu, s.lastSelectedIndex, s.lastViewOffset, s.ledOn, s.blinkMode)

/-- While blinking is off the LED pin shows `ledOn`. -/
def LedInv (s : State) : Prop :=
  s.blinkMode = false → s.ledPin = s.ledOn

/-- Thirteen passes of `loop` after `setup` that switch blinking on (at time 60), walk
through the settings menu into the speed menu, put the selection on its item 2 and
start a press at time 420. -/
def speedMenuRun : List Input :=
  [tickPot 300 LOW 0, tickPot 300 LOW 60, tickPot 1023 HIGH 70, tickPot 1023 HIGH 130,
   tickPot 1023 LOW 140, tickPot 1023 LOW 200, tickPot 0 HIGH 210, tickPot 0 HIGH 270,
   tickPot 0 LOW 280, tickPot 0 LOW 340, tickPot 500 HIGH 350, tickPot 500 HIGH 410,
   tickPot 500 LOW 420]

/-! ## Basic facts -/

theorem getMenuItemCount_main : getMenuItemCount MENU_MAIN = 3 := by decide

theorem getMenuItemCount_settings : getMenuItemCount MENU_SETTINGS = 2 := by decide

theorem getMenuItemCount_speed : getMenuItemCount MENU_SPEED = 4 := by decide

theorem getMenuItemCount_pos_cases (m : Nat) (h : 0 < getMenuItemCount m) :
    m = MENU_MAIN ∨ m = MENU_SETTINGS ∨ m = MENU_SPEED := by
  unfold getMenuItemCount at h
  split_ifs at h with h1 h2 h3
  · exact Or.inl h1
  · exact Or.inr (Or.inl h2)
  · exact Or.inr (Or.inr h3)
  · omega

theorem getMenuItemCount_le (m : Nat) : getMenuItemCount m ≤ 4 := by
  unfold getMenuItemCount
  split_ifs <;> decide

theorem menuInv_iff (s : State) :
    MenuInv s ↔ (0 ≤ s.selectedIndex ∧ s.selectedIndex < getMenuItemCount s.currentMenu ∧
      s.viewOffset = 0) := by
  have h4 := getMenuItemCount_le s.currentMenu
  have h5 : maxVisibleItems = 5 := rfl
  unfold MenuInv itemCount
  constructor
  · rintro ⟨⟨a, b⟩, ⟨c, d⟩, e, f⟩
    refine ⟨a, b, ?_⟩
    omega
  · rintro ⟨a, b, c⟩
    rw [c]
    refine ⟨⟨a, b⟩, ⟨a, by omega⟩, le_refl _, by omega⟩

/-- On readings of the potentiometer range, `map` is the floor of `5 * r / 1023`. -/
theorem map_pot (r : Int) (h0 : 0 ≤ r) :
    map r 0 1023 0 5 = 5 * r / 1023 := by
  unfold map
  have h : (r - 0) * (5 - 0) = 5 * r := by ring
  rw [h, Int.tdiv_eq_ediv (by omega) (by decide)]
  simp

theorem updateSelectionFromPot_eq (s : State) (r : Int) (h0 : 0 ≤ r)
    (hc : 0 < getMenuItemCount s.currentMenu) :
    updateSelectionFromPot r s =
      { s with selectedIndex := min (5 * r / 1023) (getMenuItemCount s.currentMenu - 1) } := by
  have hq : 0 ≤ 5 * r / 1023 := Int.ediv_nonneg (by omega) (by decide)
  unfold updateSelectionFromPot
  rw [map_pot r h0]
  simp only [if_neg (not_le.mpr hc), if_neg (not_lt.mpr hq)]
  by_cases hge : 5 * r / 1023 ≥ getMenuItemCount s.currentMenu
  · have hmin : min (5 * r / 1023) (getMenuItemCount s.currentMenu - 1)
        = getMenuItemCount s.currentMenu - 1 := by omega
    rw [if_pos hge, hmin]
    split_ifs with h
    · rfl
    · cases s; simp_all
  · have hmin : min (5 * r / 1023) (getMenuItemCount s.currentMenu - 1) = 5 * r / 1023 := by
      omega
    rw [if_neg hge, hmin]
    split_ifs with h
    · rfl
    · cases s; simp_all

theorem menuInv_pot (s : State) (r : Int) (h : MenuInv s) :
    MenuInv (updateSelectionFromPot r s) := by
  rw [menuInv_iff] at h ⊢
  obtain ⟨a, b, c⟩ := h
  unfold updateSelectionFromPot
  simp only []
  split_ifs <;> simp_all
  all_goals omega

theorem adjustViewOffset_small (sel count : Int) (a : 0 ≤ sel) (b : sel < count)
    (h4 : count ≤ 4) : adjustViewOffset sel 0 count = 0 := by
  unfold adjustViewOffset
  simp only [maxVisibleItems]
  split_ifs <;> omega

theorem redraw_menuFields (s : State) (a : 0 ≤ s.selectedIndex)
    (b : s.selectedIndex < getMenuItemCount s.currentMenu) (c : s.viewOffset = 0) :
    (redrawMenuIfNeeded s).currentMenu = s.currentMenu ∧
    (redrawMenuIfNeeded s).selectedIndex = s.selectedIndex ∧
    (redrawMenuIfNeeded s).viewOffset = 0 := by
  have h4 := getMenuItemCount_le s.currentMenu
  have hc : ¬ getMenuItemCount s.currentMenu ≤ 0 := by omega
  have e1 : (if s.selectedIndex < 0 then 0 else s.selectedIndex) = s.selectedIndex :=
    if_neg (not_lt.mpr a)
  have e2 : (if s.selectedIndex ≥ getMenuItemCount s.currentMenu then
      getMenuItemCount s.currentMenu - 1 else s.selectedIndex) = s.selectedIndex :=
    if_neg (not_le.mpr b)
  unfold redrawMenuIfNeeded
  by_cases h1 : s.currentMenu = s.lastMenu ∧ s.selectedIndex = s.lastSelectedIndex ∧
      s.viewOffset = s.lastViewOffset
  · rw [if_pos h1]
    exact ⟨rfl, rfl, c⟩
  · rw [if_neg h1]
    simp only [if_neg hc, e1, e2, c, adjustViewOffset_small _ _ a b h4, and_self]

theorem menuInv_redraw (s : State) (h : MenuInv s) :
    MenuInv (redrawMenuIfNeeded s) := by
  rw [menuInv_iff] at h ⊢
  obtain ⟨a, b, c⟩ := h
  obtain ⟨e1, e2, e3⟩ := redraw_menuFields s a b c
  rw [e1, e2, e3]
  exact ⟨a, b, rfl⟩

theorem menuInv_press (s : State) (now : Nat) (h : MenuInv s) :
    MenuInv (handleButtonPress now s) := by
  rw [menuInv_iff] at h ⊢
  obtain ⟨a, b, c⟩ := h
  rcases getMenuItemCount_pos_cases s.currentMenu (by omega) with hm | hm | hm
  · rw [hm, getMenuItemCount_main] at b
    simp only [handleButtonPress, hm, pressMain]
    split_ifs <;> simp_all [getMenuItemCount_main, getMenuItemCount_settings]
  · rw [hm, getMenuItemCount_settings] at b
    simp only [handleButtonPress, hm, pressSettings]
    split_ifs <;> simp_all [getMenuItemCount_main, getMenuItemCount_settings,
      getMenuItemCount_speed]
  · rw [hm, getMenuItemCount_speed] at b
    simp only [handleButtonPress, hm, pressSpeed]
    split_ifs <;> simp_all [getMenuItemCount_main, getMenuItemCount_settings,
      getMenuItemCount_speed]

theorem menuInv_blink (s : State) (now : Nat) (h : MenuInv s) :
    MenuInv (handleBlinking now s) := by
  rw [menuInv_iff] at h ⊢
  unfold handleBlinking
  split_ifs <;> simp_all

/-! ## Frame lemmas for the debouncer -/

theorem usub_self (a : Nat) : usub a a = 0 := by
  simp only [usub, ULONG_MOD]
  omega

theorem usub_of_le (a b : Nat) (h : b ≤ a) : usub a b = (a - b) % ULONG_MOD := by
  simp only [usub, ULONG_MOD]
  omega

theorem pot_sameButton (r : Int) (s : State) :
    SameButton s (updateSelectionFromPot r s) ∧ (updateSelectionFromPot r s).serial = s.serial := by
  unfold updateSelectionFromPot SameButton
  simp only []
  split_ifs <;> exact ⟨⟨rfl, rfl, rfl⟩, rfl⟩

theorem redraw_sameButton (s : State) :
    SameButton s (redrawMenuIfNeeded s) ∧ (redrawMenuIfNeeded s).serial = s.serial := by
  unfold redrawMenuIfNeeded SameButton
  by_cases h1 : s.currentMenu = s.lastMenu ∧ s.selectedIndex = s.lastSelectedIndex ∧
      s.viewOffset = s.lastViewOffset
  · rw [if_pos h1]
    exact ⟨⟨rfl, rfl, rfl⟩, rfl⟩
  · rw [if_neg h1]
    by_cases hc : getMenuItemCount s.currentMenu ≤ 0
    · simp only [if_pos hc, and_self]
    · simp only [if_neg hc, and_self]

theorem blink_sameButton (now : Nat) (s : State) :
    SameButton s (handleBlinking now s) ∧ (handleBlinking now s).serial = s.serial := by
  unfold handleBlinking SameButton
  split_ifs <;> exact ⟨⟨rfl, rfl, rfl⟩, rfl⟩

theorem press_sameButton (now : Nat) (s : State) :
    SameButton s (handleButtonPress now s) := by
  unfold handleButtonPress pressMain pressSettings pressSpeed SameButton
  simp only []
  split_ifs <;> exact ⟨rfl, rfl, rfl⟩

theorem press_pressCount (now : Nat) (s : State) :
    pressCount (handleButtonPress now s) = pressCount s + 1 := by
  unfold handleButtonPress pressMain pressSettings pressSpeed pressCount
  simp only []
  split_ifs <;> simp [SerialMsg.isGomb]

theorem debounceButton_spec (r : Bool) (now np : Nat) (s : State) :
    (debounceButton r now np s).lastButtonState = r ∧
    (debounceButton r now np s).lastButtonTime =
      (if r ≠ s.lastButtonState then now else s.lastButtonTime) ∧
    (debounceButton r now np s).stableState = (if Accepts r now s then r else s.stableState) ∧
    pressCount (debounceButton r now np s) =
      pressCount s + (if Accepts r now s ∧ r = LOW then 1 else 0) := by
  by_cases hacc : Accepts r now s
  · have hacc2 := hacc
    obtain ⟨h1, h2⟩ := hacc2
    have hchg : ¬ (r ≠ s.lastButtonState) := by
      intro hne
      rw [if_pos hne, usub_self] at h1
      exact absurd h1 (by decide)
    rw [if_neg hchg] at h1
    rw [if_pos hacc, if_neg hchg]
    cases r
    · obtain ⟨p1, p2, p3⟩ := press_sameButton np { s with stableState := false }
      have hc := press_pressCount np { s with stableState := false }
      unfold pressCount at hc ⊢
      dsimp only at p1 p2 p3 hc
      simp only [debounceButton, if_neg hchg, if_pos h1, if_pos h2, LOW, if_true, p2, p3, hc, hacc,
        and_self, true_and]
    · simp only [debounceButton, if_neg hchg, if_pos h1, if_pos h2, LOW, hacc, pressCount,
        true_and]
      simp
  · rw [if_neg hacc, if_neg (fun h : Accepts r now s ∧ r = LOW => hacc h.1)]
    unfold Accepts at hacc
    unfold debounceButton
    by_cases hchg : r ≠ s.lastButtonState
    · rw [if_pos hchg] at hacc ⊢
      simp only [usub_self]
      refine ⟨?_, ?_, ?_, ?_⟩ <;> simp [pressCount, hchg]
    · rw [if_neg hchg] at hacc ⊢
      by_cases h1 : usub now s.lastButtonTime > debounceDelay
      · have h2 : ¬ (r ≠ s.stableState) := fun h => hacc ⟨h1, h⟩
        simp only [if_pos h1, if_neg h2, if_neg hchg, pressCount, and_self, Nat.add_zero]
      · simp only [if_neg h1, if_neg hchg, pressCount, and_self, Nat.add_zero]

theorem accepts_congr (r : Bool) (now : Nat) (s t : State) (h : SameButton s t) :
    Accepts r now t ↔ Accepts r now s := by
  obtain ⟨h1, h2, h3⟩ := h
  unfold Accepts
  rw [h1, h2, h3]

/-- The debouncer fields and the number of presses after one pass of `loop`, in
terms of the state before it. -/
theorem loop_button (inp : Input) (s : State) :
    (loop inp s).lastButtonState = inp.reading ∧
    (loop inp s).lastButtonTime =
      (if inp.reading ≠ s.lastButtonState then inp.now else s.lastButtonTime) ∧
    (loop inp s).stableState =
      (if Accepts inp.reading inp.now s then inp.reading else s.stableState) ∧
    pressCount (loop inp s) =
      pressCount s + (if Accepts inp.reading inp.now s ∧ inp.reading = LOW then 1 else 0) := by
  obtain ⟨⟨a1, a2, a3⟩, a4⟩ := pot_sameButton inp.pot s
  obtain ⟨⟨b1, b2, b3⟩, b4⟩ := redraw_sameButton (updateSelectionFromPot inp.pot s)
  have hsame : SameButton s (redrawMenuIfNeeded (updateSelectionFromPot inp.pot s)) :=
    ⟨b1.trans a1, b2.trans a2, b3.trans a3⟩
  have hacc := accepts_congr inp.reading inp.now s _ hsame
  obtain ⟨c1, c2, c3, c4⟩ := debounceButton_spec inp.reading inp.now inp.nowPress
    (redrawMenuIfNeeded (updateSelectionFromPot inp.pot s))
  obtain ⟨⟨d1, d2, d3⟩, d4⟩ := blink_sameButton inp.nowBlink
    (debounceButton inp.reading inp.now inp.nowPress
      (redrawMenuIfNeeded (updateSelectionFromPot inp.pot s)))
  have hpc : pressCount (redrawMenuIfNeeded (updateSelectionFromPot inp.pot s)) = pressCount s := by
    unfold pressCount
    rw [b4, a4]
  unfold loop
  refine ⟨d1.trans c1, ?_, ?_, ?_⟩
  · rw [d2, c2, hsame.1, hsame.2.1]
  · rw [d3, c3, hsame.2.2]
    simp only [hacc]
  · have e : pressCount (handleBlinking inp.nowBlink
        (debounceButton inp.reading inp.now inp.nowPress
          (redrawMenuIfNeeded (updateSelectionFromPot inp.pot s)))) =
        pressCount (debounceButton inp.reading inp.now inp.nowPress
          (redrawMenuIfNeeded (updateSelectionFromPot inp.pot s))) := by
      unfold pressCount
      rw [d4]
    rw [e, c4, hpc]
    simp only [hacc]

theorem runLoop_cons (s : State) (inp : Input) (inps : List Input) :
    runLoop s (inp :: inps) = runLoop (loop inp s) inps := rfl

theorem runLoop_append (s : State) (xs ys : List Input) :
    runLoop s (xs ++ ys) = runLoop (runLoop s xs) ys := by
  unfold runLoop
  rw [List.foldl_append]

/-- While the accepted level is `LOW`, ticks that read `LOW` change nothing of it
and call `handleButtonPress` never. -/
theorem runLoop_low_held (inps : List Input) (s : State) (hs : s.stableState = LOW)
    (hl : ∀ i ∈ inps, i.reading = LOW) :
    pressCount (runLoop s inps) = pressCount s ∧ (runLoop s inps).stableState = LOW := by
  induction inps generalizing s with
  | nil => exact ⟨rfl, hs⟩
  | cons i rest ih =>
    have hi : i.reading = LOW := hl i (List.mem_cons_self _ _)
    obtain ⟨_, _, h3, h4⟩ := loop_button i s
    have hna : ¬ Accepts i.reading i.now s := by
      intro h
      exact h.2 (hi.trans hs.symm)
    rw [if_neg hna] at h3
    rw [if_neg (fun h : Accepts i.reading i.now s ∧ i.reading = LOW => hna h.1)] at h4
    obtain ⟨r1, r2⟩ := ih (loop i s) (h3.trans hs)
      (fun j hj => hl j (List.mem_cons_of_mem _ hj))
    rw [runLoop_cons]
    exact ⟨r1.trans h4, r2⟩

/-- While the button is released (accepted level and last reading `HIGH`), ticks that
read `HIGH` keep it released and call `handleButtonPress` never. -/
theorem runLoop_high_idle (inps : List Input) (s : State)
    (hs : s.stableState = HIGH ∧ s.lastButtonState = HIGH)
    (hh : ∀ i ∈ inps, i.reading = HIGH) :
    pressCount (runLoop s inps) = pressCount s ∧ (runLoop s inps).stableState = HIGH ∧
      (runLoop s inps).lastButtonState = HIGH := by
  induction inps generalizing s with
  | nil => exact ⟨rfl, hs.1, hs.2⟩
  | cons i rest ih =>
    have hi : i.reading = HIGH := hh i (List.mem_cons_self _ _)
    obtain ⟨h1, _, h3, h4⟩ := loop_button i s
    have hna : ¬ Accepts i.reading i.now s := by
      intro h
      exact h.2 (hi.trans hs.1.symm)
    rw [if_neg hna] at h3
    rw [if_neg (fun h : Accepts i.reading i.now s ∧ i.reading = LOW => hna h.1)] at h4
    obtain ⟨r1, r2⟩ := ih (loop i s) ⟨h3.trans hs.1, h1.trans hi⟩
      (fun j hj => hh j (List.mem_cons_of_mem _ hj))
    rw [runLoop_cons]
    exact ⟨r1.trans h4, r2⟩

/-- The waiting part of a press: the accepted level is still `HIGH`, the last reading
was `LOW` and the window started at `s.lastButtonTime`. Ticks that read `LOW` call
`handleButtonPress` once if at one of them the elapsed time `now - lastButtonTime`
(the 32-bit difference the code computes) is more than `debounceDelay`, and never
otherwise. -/
theorem runLoop_low_wait (inps : List Input) (s : State)
    (hs : s.stableState = HIGH ∧ s.lastButtonState = LOW)
    (hl : ∀ i ∈ inps, i.reading = LOW) :
    pressCount (runLoop s inps) =
      pressCount s +
        (if ∃ i ∈ inps, usub i.now s.lastButtonTime > debounceDelay then 1 else 0) := by
  induction inps generalizing s with
  | nil => simp [runLoop]
  | cons i rest ih =>
    have hi : i.reading = LOW := hl i (List.mem_cons_self _ _)
    obtain ⟨h1, h2, h3, h4⟩ := loop_button i s
    have hsame : ¬ (i.reading ≠ s.lastButtonState) := fun h => h (hi.trans hs.2.symm)
    rw [if_neg hsame] at h2
    have hacc : Accepts i.reading i.now s ↔ usub i.now s.lastButtonTime > debounceDelay := by
      unfold Accepts
      rw [if_neg hsame, hi, hs.1]
      constructor
      · rintro ⟨a, _⟩
        exact a
      · intro a
        exact ⟨a, by decide⟩
    rw [runLoop_cons]
    by_cases hfire : usub i.now s.lastButtonTime > debounceDelay
    · have ha := hacc.mpr hfire
      rw [if_pos ha, hi] at h3
      rw [if_pos ⟨ha, hi⟩] at h4
      obtain ⟨r1, _⟩ := runLoop_low_held rest (loop i s) h3
        (fun j hj => hl j (List.mem_cons_of_mem _ hj))
      rw [r1, h4, if_pos ⟨i, List.mem_cons_self _ _, hfire⟩]
    · have ha : ¬ Accepts i.reading i.now s := fun h => hfire (hacc.mp h)
      rw [if_neg ha] at h3
      rw [if_neg (fun h : Accepts i.reading i.now s ∧ i.reading = LOW => ha h.1)] at h4
      have r := ih (loop i s) ⟨h3.trans hs.1, h1.trans hi⟩
        (fun j hj => hl j (List.mem_cons_of_mem _ hj))
      rw [r, h4, h2]
      simp only [List.mem_cons, exists_eq_or_imp, hfire, false_or, Nat.add_zero]

/-- Invariant of a fast oscillation. After any part `p` of the ticks no press was
handled, the accepted level is still `HIGH`, and when the last reading was `LOW` the
window started at the first tick of the block of `LOW` readings that ends `p`, or,
when `p` reads `LOW` throughout and continues a run that was in progress at the
start, at the `lastButtonTime` of the starting state. -/
theorem runLoop_oscillation (s : State) (inps : List Input)
    (hs : s.stableState = HIGH)
    (hpend : s.lastButtonState = LOW → ∀ pre post, inps = pre ++ post →
      (∀ x ∈ pre, x.reading = LOW) →
      ∀ x ∈ pre, usub x.now s.lastButtonTime ≤ debounceDelay)
    (hmono : inps.Pairwise (fun a b => a.now ≤ b.now))
    (hruns : ∀ pre run post, inps = pre ++ run ++ post →
      (∀ x ∈ run, ∀ y ∈ run, x.reading = y.reading) →
      ∀ x ∈ run, ∀ y ∈ run, y.now ≤ x.now + debounceDelay)
    (p : List Input) :
    ∀ post, inps = p ++ post →
      pressCount (runLoop s p) = pressCount s ∧ (runLoop s p).stableState = HIGH ∧
      ((runLoop s p).lastButtonState = LOW →
        (∃ p1 x0 run, p = p1 ++ x0 :: run ∧ (∀ y ∈ x0 :: run, y.reading = LOW) ∧
          (runLoop s p).lastButtonTime = x0.now) ∨
        (s.lastButtonState = LOW ∧ (∀ y ∈ p, y.reading = LOW) ∧
          (runLoop s p).lastButtonTime = s.lastButtonTime)) := by
  induction p using List.reverseRecOn with
  | nil =>
    intro post _
    refine ⟨rfl, hs, ?_⟩
    intro h
    exact Or.inr ⟨h, fun y hy => absurd hy (List.not_mem_nil y), rfl⟩
  | append_singleton p x ih =>
    intro post hsplit
    obtain ⟨i1, i2, i3⟩ := ih (x :: post) (by rw [hsplit]; simp)
    rw [runLoop_append]
    have hstep : runLoop (runLoop s p) [x] = loop x (runLoop s p) := rfl
    rw [hstep]
    obtain ⟨h1, h2, h3, h4⟩ := loop_button x (runLoop s p)
    have hna : ¬ Accepts x.reading x.now (runLoop s p) := by
      rintro ⟨a1, a2⟩
      rw [i2] at a2
      have hx : x.reading = LOW := by
        cases hr : x.reading
        · rfl
        · exact absurd hr a2
      by_cases hch : x.reading ≠ (runLoop s p).lastButtonState
      · rw [if_pos hch, usub_self] at a1
        exact absurd a1 (by decide)
      · rw [if_neg hch] at a1
        have hl : (runLoop s p).lastButtonState = LOW := by
          rw [← hx]
          exact (not_not.mp hch).symm
        rcases i3 hl with ⟨p1, x0, run, e1, e2, e3⟩ | ⟨q1, q2, q3⟩
        · have hblock : inps = p1 ++ (x0 :: run ++ [x]) ++ post := by
            rw [hsplit, e1]
            simp
          have hall : ∀ y ∈ x0 :: run ++ [x], y.reading = LOW := by
            intro y hy
            rcases List.mem_append.mp hy with hy | hy
            · exact e2 y hy
            · rw [List.mem_singleton.mp hy]
              exact hx
          have hspan := hruns p1 (x0 :: run ++ [x]) post hblock
            (fun a ha b hb => (hall a ha).trans (hall b hb).symm)
            x0 (by simp) x (by simp)
          have hord : x0.now ≤ x.now := by
            rw [hblock, List.pairwise_append, List.pairwise_append] at hmono
            obtain ⟨⟨_, hm, _⟩, _, _⟩ := hmono
            have hm2 : List.Pairwise (fun a b => a.now ≤ b.now) (x0 :: (run ++ [x])) := hm
            rw [List.pairwise_cons] at hm2
            exact hm2.1 x (by simp)
          rw [e3, usub_of_le _ _ hord] at a1
          simp only [ULONG_MOD, debounceDelay] at a1 hspan
          omega
        · have hshort := hpend q1 (p ++ [x]) post hsplit
            (fun y hy => by
              rcases List.mem_append.mp hy with hy | hy
              · exact q2 y hy
              · rw [List.mem_singleton.mp hy]
                exact hx)
            x (by simp)
          rw [q3] at a1
          exact absurd a1 (Nat.not_lt.mpr hshort)
    rw [if_neg hna] at h3
    rw [if_neg (fun h : Accepts x.reading x.now (runLoop s p) ∧ x.reading = LOW => hna h.1)] at h4
    refine ⟨h4.trans i1, h3.trans i2, ?_⟩
    intro hlow
    have hx : x.reading = LOW := h1.symm.trans hlow
    by_cases hch : x.reading ≠ (runLoop s p).lastButtonState
    · rw [if_pos hch] at h2
      refine Or.inl ⟨p, x, [], rfl, ?_, h2⟩
      intro y hy
      rw [List.mem_singleton.mp hy]
      exact hx
    · rw [if_neg hch] at h2
      have hl : (runLoop s p).lastButtonState = LOW := by
        rw [← hx]
        exact (not_not.mp hch).symm
      rcases i3 hl with ⟨p1, x0, run, e1, e2, e3⟩ | ⟨q1, q2, q3⟩
      · refine Or.inl ⟨p1, x0, run ++ [x], ?_, ?_, h2.trans e3⟩
        · rw [e1]
          simp
        · intro y hy
          have hy2 : y ∈ (x0 :: run) ++ [x] := hy
          rcases List.mem_append.mp hy2 with hy3 | hy3
          · exact e2 y hy3
          · rw [List.mem_singleton.mp hy3]
            exact hx
      · refine Or.inr ⟨q1, ?_, h2.trans q3⟩
        intro y hy
        rcases List.mem_append.mp hy with hy3 | hy3
        · exact q2 y hy3
        · rw [List.mem_singleton.mp hy3]
          exact hx

theorem runOps_menuInv (ops : List Op) (s : State) (h : MenuInv s) : MenuInv (runOps s ops) := by
  induction ops generalizing s with
  | nil => exact h
  | cons op rest ih =>
    have hstep : runOps s (op :: rest) = runOps (applyOp s op) rest := rfl
    rw [hstep]
    apply ih
    cases op with
    | pot r => exact menuInv_pot s r h
    | redraw => exact menuInv_redraw s h
    | press now => exact menuInv_press s now h
    | blink now => exact menuInv_blink s now h

/-- In a state where the accepted level is `LOW`, ticks can make it `HIGH` only
through a tick that changes it from `LOW` to `HIGH`. -/
theorem runLoop_stable_rise (mid : List Input) (s : State) (h0 : s.stableState = LOW)
    (h1 : (runLoop s mid).stableState = HIGH) :
    ∃ m1 t m2, mid = m1 ++ t :: m2 ∧ (runLoop s m1).stableState = LOW ∧
      (runLoop s (m1 ++ [t])).stableState = HIGH := by
  induction mid generalizing s with
  | nil =>
    have h2 : s.stableState = HIGH := h1
    rw [h0] at h2
    exact absurd h2 (by decide)
  | cons t rest ih =>
    cases hst : (loop t s).stableState
    · obtain ⟨m1, u, m2, e1, e2, e3⟩ := ih (loop t s) hst h1
      refine ⟨t :: m1, u, m2, ?_, e2, e3⟩
      rw [e1]
      rfl
    · exact ⟨[], t, rest, rfl, h0, hst⟩

/-! ## The input sampler -/

/-- C1: for a reading `r` in `[0,1023]` and each of the three menus (3, 2 and 4
items), `updateSelectionFromPot` changes only `selectedIndex`, which becomes
`min (floor (5 * r / 1023)) (itemCount - 1)` and so lies in `[0, itemCount - 1]`;
the reading 1023 on the main menu is mapped to 5 and clamped to 2. -/
theorem updateSelectionFromPot_clamps (s : State) (r : Int)
    (hr : 0 ≤ r ∧ r ≤ 1023)
    (hm : s.currentMenu = MENU_MAIN ∨ s.currentMenu = MENU_SETTINGS ∨
      s.currentMenu = MENU_SPEED) :
    (getMenuItemCount MENU_MAIN = 3 ∧ getMenuItemCount MENU_SETTINGS = 2 ∧
      getMenuItemCount MENU_SPEED = 4) ∧
    updateSelectionFromPot r s =
      { s with selectedIndex := min (5 * r / 1023) (itemCount s - 1) } ∧
    (0 ≤ (updateSelectionFromPot r s).selectedIndex ∧
      (updateSelectionFromPot r s).selectedIndex ≤ itemCount s - 1) ∧
    (r = 1023 → s.currentMenu = MENU_MAIN →
      map r 0 1023 0 5 = 5 ∧ (updateSelectionFromPot r s).selectedIndex = 2) := by
  have hc : 0 < getMenuItemCount s.currentMenu := by
    rcases hm with h | h | h <;> rw [h] <;> decide
  have heq := updateSelectionFromPot_eq s r hr.1 hc
  have hq : 0 ≤ 5 * r / 1023 := Int.ediv_nonneg (by omega) (by decide)
  refine ⟨⟨getMenuItemCount_main, getMenuItemCount_settings, getMenuItemCount_speed⟩,
    heq, ?_, ?_⟩
  · rw [heq]
    unfold itemCount
    dsimp only
    omega
  · intro h1 h2
    rw [heq, h1, h2]
    refine ⟨by decide, ?_⟩
    dsimp only
    rw [getMenuItemCount_main]
    decide

/-- C1, at the reading 1023 on the main menu of the initial state. -/
theorem updateSelectionFromPot_clamps_witness :
    (updateSelectionFromPot 1023 initState).selectedIndex = 2 :=
  ((updateSelectionFromPot_clamps initState 1023 ⟨by decide, by decide⟩
    (Or.inl rfl)).2.2.2 rfl rfl).2

/-! ## The menu state invariants -/

/-- C2: from a state with `currentMenu = MENU_MAIN`, `selectedIndex = 0` and
`viewOffset = 0`, after every sequence of calls of `updateSelectionFromPot` (with any
reading, so with any reading in `[0,1023]`), `redrawMenuIfNeeded` and
`handleButtonPress` (and of `handleBlinking`) the three invariants of the menu state
hold. -/
theorem menuState_invariants (s0 : State) (ops : List Op)
    (h0 : s0.currentMenu = MENU_MAIN ∧ s0.selectedIndex = 0 ∧ s0.viewOffset = 0) :
    (0 ≤ (runOps s0 ops).selectedIndex ∧
      (runOps s0 ops).selectedIndex < getMenuItemCount (runOps s0 ops).currentMenu) ∧
    ((runOps s0 ops).viewOffset ≤ (runOps s0 ops).selectedIndex ∧
      (runOps s0 ops).selectedIndex < (runOps s0 ops).viewOffset + maxVisibleItems) ∧
    (0 ≤ (runOps s0 ops).viewOffset ∧
      (runOps s0 ops).viewOffset ≤
        max 0 (getMenuItemCount (runOps s0 ops).currentMenu - maxVisibleItems)) := by
  have hinit : MenuInv s0 := by
    rw [menuInv_iff, h0.1, h0.2.1, h0.2.2]
    decide
  exact runOps_menuInv ops s0 hinit

/-- C2, on a run through the settings menu. -/
theorem menuState_invariants_witness :
    MenuInv (runOps initState
      [Op.pot 1023, Op.redraw, Op.press 7, Op.redraw, Op.pot 300, Op.press 9, Op.redraw]) :=
  menuState_invariants initState
    [Op.pot 1023, Op.redraw, Op.press 7, Op.redraw, Op.pot 300, Op.press 9, Op.redraw]
    ⟨rfl, rfl, rfl⟩

/-! ## The debouncer -/

/-- C3, as stated, fails: after a tick that reads `LOW` at time 100, a tick that reads
`LOW` at time 150 sees the reading unchanged for exactly 50 units and different from
`stableState`, and does not accept it. -/
theorem debounce_rejects_exactly_50 :
    (tickAt LOW 150).reading = (loop (tickAt LOW 100) initState).lastButtonState ∧
    usub (tickAt LOW 150).now (loop (tickAt LOW 100) initState).lastButtonTime
      ≥ debounceDelay ∧
    (tickAt LOW 150).reading ≠ (loop (tickAt LOW 100) initState).stableState ∧
    (loop (tickAt LOW 150) (loop (tickAt LOW 100) initState)).stableState
      ≠ (tickAt LOW 150).reading := by
  decide

/-- C3, amended: in a tick whose reading equals the previous reading, when more than
`debounceDelay` (50) units passed since `lastButtonTime` and the reading differs from
`stableState`, the reading becomes the new `stableState` in that tick. -/
theorem debounce_accepts_after_50 (s : State) (inp : Input)
    (hsame : inp.reading = s.lastButtonState)
    (hlong : usub inp.now s.lastButtonTime > debounceDelay)
    (hdiff : inp.reading ≠ s.stableState) :
    (loop inp s).stableState = inp.reading := by
  obtain ⟨_, _, h3, _⟩ := loop_button inp s
  have hacc : Accepts inp.reading inp.now s := by
    unfold Accepts
    rw [if_neg (not_not.mpr hsame)]
    exact ⟨hlong, hdiff⟩
  rw [h3, if_pos hacc]

/-- C3 amended, at 51 units after the first `LOW` reading. -/
theorem debounce_accepts_after_50_witness :
    (loop (tickAt LOW 151) (loop (tickAt LOW 100) initState)).stableState = LOW :=
  debounce_accepts_after_50 (loop (tickAt LOW 100) initState) (tickAt LOW 151)
    (by decide) (by decide) (by decide)

/-- C4, as stated, fails: from the initial (released) state, two ticks that read `LOW`
at times 100 and 150 sample `LOW` over a span of 50 units, and `handleButtonPress` is
not called. -/
theorem single_press_span_50_no_call :
    (initState.stableState = HIGH ∧ initState.lastButtonState = HIGH) ∧
    ((tickAt LOW 100).reading = LOW ∧ (tickAt LOW 150).reading = LOW) ∧
    (tickAt LOW 150).now - (tickAt LOW 100).now ≥ 50 ∧
    usub (tickAt LOW 150).now (tickAt LOW 100).now ≥ 50 ∧
    pressCount (runLoop initState [tickAt LOW 100, tickAt LOW 150]) = pressCount initState ∧
    pressCount (runLoop initState [tickAt LOW 100, tickAt LOW 150])
      ≠ pressCount initState + 1 := by
  decide

/-- C4, amended: from a released state (`stableState` and the last reading `HIGH`),
over ticks that read `HIGH` and then only `LOW`, with `LOW` sampled over a span of
more than 50 time units (at one of the `LOW` samples the time elapsed since the first
one, the difference of the tick counter, is more than 50), `handleButtonPress` is
called exactly once. -/
theorem single_press_fires_once (s : State) (highs : List Input) (first : Input)
    (rest : List Input)
    (hs : s.stableState = HIGH ∧ s.lastButtonState = HIGH)
    (hh : ∀ i ∈ highs, i.reading = HIGH)
    (hl : first.reading = LOW ∧ ∀ i ∈ rest, i.reading = LOW)
    (hspan : ∃ i ∈ rest, usub i.now first.now > debounceDelay) :
    pressCount (runLoop s (highs ++ first :: rest)) = pressCount s + 1 := by
  obtain ⟨a1, a2, a3⟩ := runLoop_high_idle highs s hs hh
  obtain ⟨b1, b2, b3, b4⟩ := loop_button first (runLoop s highs)
  have hchg : first.reading ≠ (runLoop s highs).lastButtonState := by
    rw [hl.1, a3]
    decide
  have hna : ¬ Accepts first.reading first.now (runLoop s highs) := by
    rintro ⟨c1, _⟩
    rw [if_pos hchg, usub_self] at c1
    exact absurd c1 (by decide)
  rw [if_pos hchg] at b2
  rw [if_neg hna] at b3
  rw [if_neg (fun h : Accepts first.reading first.now (runLoop s highs) ∧
    first.reading = LOW => hna h.1)] at b4
  have hw := runLoop_low_wait rest (loop first (runLoop s highs))
    ⟨b3.trans a2, b1.trans hl.1⟩ hl.2
  rw [b2, if_pos hspan] at hw
  rw [runLoop_append, runLoop_cons, hw, b4, a1]

/-- C4 amended, on a press held across the wraparound of the tick counter: after two
idle ticks `LOW` is sampled 6 and 1 ticks before the wrap and at counter value 45,
which is 51 ticks after the first `LOW` sample. -/
theorem single_press_fires_once_witness :
    pressCount (runLoop initState
      ([tickAt HIGH 10, tickAt HIGH 60] ++
        tickAt LOW 4294967290 :: [tickAt LOW 4294967295, tickAt LOW 45]))
      = pressCount initState + 1 :=
  single_press_fires_once initState [tickAt HIGH 10, tickAt HIGH 60] (tickAt LOW 4294967290)
    [tickAt LOW 4294967295, tickAt LOW 45] (by decide) (by decide) (by decide) (by decide)

/-- C5, as stated, fails: the state after `setup` and one pass that reads `LOW` at
time 100 is reachable and has `stableState = HIGH`; the single tick that reads `LOW`
at time 151 is a sequence in which no run spans more than 50 units, and
`handleButtonPress` is called in it, because the run of `LOW` readings was already
in progress. -/
theorem fast_oscillation_pending_run_fires :
    Reachable (loop (tickAt LOW 100) bootState) ∧
    (loop (tickAt LOW 100) bootState).stableState = HIGH ∧
    [tickAt LOW 151].Pairwise (fun a b => a.now ≤ b.now) ∧
    (∀ pre run post, [tickAt LOW 151] = pre ++ run ++ post →
      (∀ x ∈ run, ∀ y ∈ run, x.reading = y.reading) →
      ∀ x ∈ run, ∀ y ∈ run, y.now ≤ x.now + debounceDelay) ∧
    pressCount (runLoop (loop (tickAt LOW 100) bootState) [tickAt LOW 151]) =
      pressCount (loop (tickAt LOW 100) bootState) + 1 := by
  refine ⟨Reachable.tick bootState (tickAt LOW 100) Reachable.boot, by decide,
    List.pairwise_singleton _ _, ?_, by decide⟩
  intro pre run post hsplit _ x hx y hy
  have hxm : x ∈ [tickAt LOW 151] := by
    rw [hsplit]
    exact List.mem_append_left _ (List.mem_append_right _ hx)
  have hym : y ∈ [tickAt LOW 151] := by
    rw [hsplit]
    exact List.mem_append_left _ (List.mem_append_right _ hy)
  rw [List.mem_singleton.mp hxm, List.mem_singleton.mp hym]
  decide

/-- C5, amended: from a state with `stableState = HIGH` in which a run of `LOW`
readings already in progress (last reading `LOW`) is counted from its start
`lastButtonTime` and lies within 50 time units as well, so in particular from the
released state with the last reading `HIGH`, over ticks with non-decreasing time
stamps in which every block of consecutive ticks with the same reading lies within
50 time units, `handleButtonPress` is never called. -/
theorem fast_oscillation_never_fires (s : State) (inps : List Input)
    (hs : s.stableState = HIGH)
    (hpend : s.lastButtonState = LOW → ∀ pre post, inps = pre ++ post →
      (∀ x ∈ pre, x.reading = LOW) →
      ∀ x ∈ pre, usub x.now s.lastButtonTime ≤ debounceDelay)
    (hmono : inps.Pairwise (fun a b => a.now ≤ b.now))
    (hruns : ∀ pre run post, inps = pre ++ run ++ post →
      (∀ x ∈ run, ∀ y ∈ run, x.reading = y.reading) →
      ∀ x ∈ run, ∀ y ∈ run, y.now ≤ x.now + debounceDelay) :
    pressCount (runLoop s inps) = pressCount s ∧
    ∀ pre post, inps = pre ++ post → pressCount (runLoop s pre) = pressCount s :=
  ⟨(runLoop_oscillation s inps hs hpend hmono hruns inps [] (by simp)).1,
    fun pre post h => (runLoop_oscillation s inps hs hpend hmono hruns pre post h).1⟩

/-- C5 amended, from the state with a `LOW` reading pending since time 100, on a
signal that bounces at times 120, 130 and 140. -/
theorem fast_oscillation_never_fires_witness :
    pressCount (runLoop (loop (tickAt LOW 100) bootState)
      [tickAt LOW 120, tickAt HIGH 130, tickAt LOW 140])
      = pressCount (loop (tickAt LOW 100) bootState) :=
  (fast_oscillation_never_fires (loop (tickAt LOW 100) bootState)
    [tickAt LOW 120, tickAt HIGH 130, tickAt LOW 140]
    (by decide)
    (by
      intro _ pre post hsplit _ x hx
      have hxm : x ∈ [tickAt LOW 120, tickAt HIGH 130, tickAt LOW 140] := by
        rw [hsplit]
        exact List.mem_append_left _ hx
      simp only [List.mem_cons, List.mem_singleton, List.not_mem_nil, or_false] at hxm
      rcases hxm with h | h | h <;> rw [h] <;> decide)
    (by decide)
    (by
      intro pre run post hsplit _ x hx y hy
      have hxm : x ∈ [tickAt LOW 120, tickAt HIGH 130, tickAt LOW 140] := by
        rw [hsplit]
        exact List.mem_append_left _ (List.mem_append_right _ hx)
      have hym : y ∈ [tickAt LOW 120, tickAt HIGH 130, tickAt LOW 140] := by
        rw [hsplit]
        exact List.mem_append_left _ (List.mem_append_right _ hy)
      simp only [List.mem_cons, List.mem_singleton, List.not_mem_nil, or_false] at hxm hym
      rcases hxm with h | h | h <;> rcases hym with g | g | g <;>
        rw [h, g] <;> decide)).1

/-- C6: in every tick `handleButtonPress` is called exactly when `stableState` goes
from `HIGH` to `LOW` in that tick (so a change to `HIGH` calls nothing); over ticks
that all read `LOW` it is called at most once; and between two ticks that call it
there is a tick in which `stableState` goes from `LOW` to `HIGH`. -/
theorem activation_once_per_press (s : State) :
    (∀ inp : Input, pressCount (loop inp s) = pressCount s +
      (if s.stableState = HIGH ∧ (loop inp s).stableState = LOW then 1 else 0)) ∧
    (∀ inp : Input, (loop inp s).stableState = HIGH →
      pressCount (loop inp s) = pressCount s) ∧
    (∀ inps : List Input, (∀ i ∈ inps, i.reading = LOW) →
      pressCount (runLoop s inps) ≤ pressCount s + 1) ∧
    (∀ (pre : List Input) (a : Input) (mid : List Input) (b : Input),
      pressCount (runLoop s (pre ++ [a])) = pressCount (runLoop s pre) + 1 →
      pressCount (runLoop s (pre ++ [a] ++ mid ++ [b]))
        = pressCount (runLoop s (pre ++ [a] ++ mid)) + 1 →
      ∃ m1 t m2, mid = m1 ++ t :: m2 ∧
        (runLoop s (pre ++ [a] ++ m1)).stableState = LOW ∧
        (runLoop s (pre ++ [a] ++ m1 ++ [t])).stableState = HIGH) := by
  have hstep : ∀ (st : State) (inp : Input), pressCount (loop inp st) = pressCount st +
      (if st.stableState = HIGH ∧ (loop inp st).stableState = LOW then 1 else 0) := by
    intro st inp
    obtain ⟨_, _, h3, h4⟩ := loop_button inp st
    rw [h4, h3]
    by_cases hacc : Accepts inp.reading inp.now st
    · have hne := hacc.2
      rw [if_pos hacc]
      cases hr : inp.reading <;> cases hst : st.stableState <;> simp_all
    · rw [if_neg hacc]
      cases hst : st.stableState <;> simp_all
  have hfire : ∀ (st : State) (inp : Input), pressCount (loop inp st) = pressCount st + 1 →
      st.stableState = HIGH ∧ (loop inp st).stableState = LOW := by
    intro st inp h
    have h2 := hstep st inp
    by_contra hc
    rw [if_neg hc] at h2
    omega
  refine ⟨hstep s, ?_, ?_, ?_⟩
  · intro inp hhigh
    have h := hstep s inp
    rw [hhigh] at h
    simpa using h
  · intro inps
    induction inps generalizing s with
    | nil =>
      intro _
      exact Nat.le_succ _
    | cons i rest ih =>
      intro hl
      have hrest : ∀ j ∈ rest, j.reading = LOW := fun j hj => hl j (List.mem_cons_of_mem _ hj)
      rw [runLoop_cons]
      have h := hstep s i
      by_cases hc : s.stableState = HIGH ∧ (loop i s).stableState = LOW
      · rw [if_pos hc] at h
        obtain ⟨r1, _⟩ := runLoop_low_held rest (loop i s) hc.2 hrest
        rw [r1, h]
      · rw [if_neg hc] at h
        have r := ih (loop i s) hrest
        omega
  · intro pre a mid b ha hb
    rw [runLoop_append] at ha
    rw [runLoop_append] at hb
    obtain ⟨_, a2⟩ := hfire (runLoop s pre) a ha
    obtain ⟨b1, _⟩ := hfire (runLoop s (pre ++ [a] ++ mid)) b hb
    rw [runLoop_append] at b1
    have a3 : (runLoop s (pre ++ [a])).stableState = LOW := by
      rw [runLoop_append]
      exact a2
    obtain ⟨m1, t, m2, e1, e2, e3⟩ := runLoop_stable_rise mid (runLoop s (pre ++ [a])) a3 b1
    refine ⟨m1, t, m2, e1, ?_, ?_⟩
    · rw [runLoop_append]
      exact e2
    · rw [List.append_assoc (pre ++ [a]), runLoop_append]
      exact e3

/-- C6, on a press held over five ticks from the initial state. -/
theorem activation_once_per_press_witness :
    pressCount (runLoop initState
      [tickAt LOW 0, tickAt LOW 60, tickAt LOW 120, tickAt LOW 500, tickAt LOW 9000])
      ≤ pressCount initState + 1 :=
  (activation_once_per_press initState).2.2.1
    [tickAt LOW 0, tickAt LOW 60, tickAt LOW 120, tickAt LOW 500, tickAt LOW 9000]
    (by decide)

/-! ## The transition table -/

/-- C7: on each navigation entry, (MAIN, 2) to SETTINGS, (SETTINGS, 0) to SPEED,
(SETTINGS, 1) to MAIN and (SPEED, 3) to SETTINGS, `handleButtonPress` enters the
target menu with `selectedIndex = 0` and `viewOffset = 0`, whatever they were, and
leaves `ledOn`, `blinkMode`, `blinkInterval`, `lastBlinkTime` and the LED pin as
they are. -/
theorem handleButtonPress_navigates (s : State) (now : Nat) (target : Nat)
    (h : (s.currentMenu = MENU_MAIN ∧ s.selectedIndex = 2 ∧ target = MENU_SETTINGS) ∨
      (s.currentMenu = MENU_SETTINGS ∧ s.selectedIndex = 0 ∧ target = MENU_SPEED) ∨
      (s.currentMenu = MENU_SETTINGS ∧ s.selectedIndex = 1 ∧ target = MENU_MAIN) ∨
      (s.currentMenu = MENU_SPEED ∧ s.selectedIndex = 3 ∧ target = MENU_SETTINGS)) :
    (handleButtonPress now s).currentMenu = target ∧
    (handleButtonPress now s).selectedIndex = 0 ∧
    (handleButtonPress now s).viewOffset = 0 ∧
    (handleButtonPress now s).ledOn = s.ledOn ∧
    (handleButtonPress now s).blinkMode = s.blinkMode ∧
    (handleButtonPress now s).blinkInterval = s.blinkInterval ∧
    (handleButtonPress now s).lastBlinkTime = s.lastBlinkTime ∧
    (handleButtonPress now s).ledPin = s.ledPin := by
  rcases h with ⟨hm, hi, ht⟩ | ⟨hm, hi, ht⟩ | ⟨hm, hi, ht⟩ | ⟨hm, hi, ht⟩ <;>
    simp [handleButtonPress, pressMain, pressSettings, pressSpeed, hm, hi, ht]

/-- C7, on the entry (MAIN, 2) with a scrolled window. -/
theorem handleButtonPress_navigates_witness :
    (handleButtonPress 5 { initState with selectedIndex := 2, viewOffset := 1 }).currentMenu
      = MENU_SETTINGS ∧
    (handleButtonPress 5 { initState with selectedIndex := 2, viewOffset := 1 }).viewOffset
      = 0 :=
  ⟨(handleButtonPress_navigates { initState with selectedIndex := 2, viewOffset := 1 } 5
      MENU_SETTINGS (Or.inl ⟨rfl, rfl, rfl⟩)).1,
    (handleButtonPress_navigates { initState with selectedIndex := 2, viewOffset := 1 } 5
      MENU_SETTINGS (Or.inl ⟨rfl, rfl, rfl⟩)).2.2.1⟩

/-- C8: on (MAIN, 0) `handleButtonPress` negates `ledOn`, clears `blinkMode` and writes
the LED pin `HIGH` exactly when the new `ledOn` is true; the menu position stays, so
from `ledOn = false` two presses give `ledOn = true`, `blinkMode = false`, pin `HIGH`
and then `ledOn = false`, pin `LOW`. -/
theorem handleButtonPress_toggles_led (s : State) (now now2 : Nat)
    (hm : s.currentMenu = MENU_MAIN) (hi : s.selectedIndex = 0) :
    ((handleButtonPress now s).ledOn = !s.ledOn ∧
      (handleButtonPress now s).blinkMode = false ∧
      ((handleButtonPress now s).ledPin = HIGH ↔ (handleButtonPress now s).ledOn = true)) ∧
    (s.ledOn = false →
      ((handleButtonPress now s).ledOn = true ∧ (handleButtonPress now s).blinkMode = false ∧
        (handleButtonPress now s).ledPin = HIGH) ∧
      ((handleButtonPress now2 (handleButtonPress now s)).ledOn = false ∧
        (handleButtonPress now2 (handleButtonPress now s)).blinkMode = false ∧
        (handleButtonPress now2 (handleButtonPress now s)).ledPin = LOW)) := by
  constructor
  · simp [handleButtonPress, pressMain, hm, hi]
  · intro hoff
    simp [handleButtonPress, pressMain, hm, hi, hoff]

/-- C8, on two presses from the initial state with blinking switched on. -/
theorem handleButtonPress_toggles_led_witness :
    (handleButtonPress 3 { initState with blinkMode := true }).ledPin = HIGH ∧
    (handleButtonPress 8 (handleButtonPress 3 { initState with blinkMode := true })).ledPin
      = LOW :=
  ⟨((handleButtonPress_toggles_led { initState with blinkMode := true } 3 8 rfl rfl).2 rfl).1.2.2,
    ((handleButtonPress_toggles_led { initState with blinkMode := true } 3 8 rfl rfl).2 rfl).2.2.2⟩

/-- C9: on (MAIN, 1) `handleButtonPress` negates `blinkMode` and keeps `ledOn`; when
`blinkMode` becomes false the LED pin is written to `ledOn`; when it becomes true
`lastBlinkTime` becomes the current time, the pin is not written, and a
`handleBlinking` call at a time less than `blinkInterval` after it changes nothing. -/
theorem handleButtonPress_toggles_blink (s : State) (now : Nat)
    (hm : s.currentMenu = MENU_MAIN) (hi : s.selectedIndex = 1) :
    (handleButtonPress now s).blinkMode = (!s.blinkMode) ∧
    (handleButtonPress now s).ledOn = s.ledOn ∧
    (handleButtonPress now s).blinkInterval = s.blinkInterval ∧
    ((handleButtonPress now s).blinkMode = false →
      (handleButtonPress now s).ledPin = (if s.ledOn then HIGH else LOW) ∧
      (handleButtonPress now s).lastBlinkTime = s.lastBlinkTime) ∧
    ((handleButtonPress now s).blinkMode = true →
      (handleButtonPress now s).lastBlinkTime = now ∧
      (handleButtonPress now s).ledPin = s.ledPin ∧
      ∀ t : Nat, usub t (handleButtonPress now s).lastBlinkTime
          < (handleButtonPress now s).blinkInterval →
        handleBlinking t (handleButtonPress now s) = handleButtonPress now s) := by
  cases hb : s.blinkMode
  · simp only [handleButtonPress, pressMain, hm, hi, hb]
    simp only [handleBlinking]
    simp
  · simp [handleButtonPress, pressMain, hm, hi, hb]

/-- C9, on switching blinking on at time 1000: no toggle at time 1499. -/
theorem handleButtonPress_toggles_blink_witness :
    (handleBlinking 1499 (handleButtonPress 1000 { initState with selectedIndex := 1 })).ledPin
      = initState.ledPin :=
  (congrArg State.ledPin
    (((handleButtonPress_toggles_blink { initState with selectedIndex := 1 } 1000 rfl rfl).2.2.2.2
      (by decide)).2.2 1499 (by decide))).trans
    ((handleButtonPress_toggles_blink { initState with selectedIndex := 1 } 1000 rfl rfl).2.2.2.2
      (by decide)).2.1

/-- C10: on (SPEED, 0), (SPEED, 1) and (SPEED, 2) `handleButtonPress` sets
`blinkInterval` to 800, 400 and 150, and leaves `currentMenu`, `selectedIndex`,
`viewOffset`, `ledOn`, `blinkMode`, `lastBlinkTime` and the LED pin as they are. -/
theorem handleButtonPress_sets_interval (s : State) (now : Nat)
    (hm : s.currentMenu = MENU_SPEED)
    (hi : s.selectedIndex = 0 ∨ s.selectedIndex = 1 ∨ s.selectedIndex = 2) :
    (handleButtonPress now s).blinkInterval =
      (if s.selectedIndex = 0 then 800 else if s.selectedIndex = 1 then 400 else 150) ∧
    (handleButtonPress now s).currentMenu = s.currentMenu ∧
    (handleButtonPress now s).selectedIndex = s.selectedIndex ∧
    (handleButtonPress now s).viewOffset = s.viewOffset ∧
    (handleButtonPress now s).ledOn = s.ledOn ∧
    (handleButtonPress now s).blinkMode = s.blinkMode ∧
    (handleButtonPress now s).lastBlinkTime = s.lastBlinkTime ∧
    (handleButtonPress now s).ledPin = s.ledPin := by
  rcases hi with hi | hi | hi <;>
    simp [handleButtonPress, pressSpeed, hm, hi]

/-- C10, on the entry (SPEED, 2). -/
theorem handleButtonPress_sets_interval_witness :
    (handleButtonPress 4 { initState with currentMenu := MENU_SPEED, selectedIndex := 2 }).blinkInterval
      = 150 :=
  (handleButtonPress_sets_interval
    { initState with currentMenu := MENU_SPEED, selectedIndex := 2 } 4 rfl
    (Or.inr (Or.inr rfl))).1

/-! ## The blink timer and the tick counter -/

theorem usub_add_mod (start d : Nat) (hd : d < ULONG_MOD) :
    usub ((start + d) % ULONG_MOD) start = d := by
  simp only [usub, ULONG_MOD] at hd ⊢
  omega

theorem not_eq_high (b : Bool) : (if b = HIGH then LOW else HIGH) = !b := by
  cases b <;> rfl

theorem handleBlinking_off (s : State) (now : Nat) (h : s.blinkMode = false) :
    handleBlinking now s = s := by
  unfold handleBlinking
  simp [h]

theorem handleBlinking_due (s : State) (now : Nat) (h : s.blinkMode = true)
    (hd : usub now s.lastBlinkTime ≥ s.blinkInterval) :
    handleBlinking now s = { s with lastBlinkTime := now, ledPin := !s.ledPin } := by
  unfold handleBlinking
  rw [not_eq_high]
  simp [h, hd]

theorem handleBlinking_early (s : State) (now : Nat)
    (hd : usub now s.lastBlinkTime < s.blinkInterval) :
    handleBlinking now s = s := by
  unfold handleBlinking
  simp [Nat.not_le.mpr hd]

/-- C12: `handleBlinking` changes nothing when `blinkMode` is false; when it is true
and `now - lastBlinkTime` is at least `blinkInterval` it inverts the LED pin and sets
`lastBlinkTime` to `now`, and nothing else; when the elapsed time is less it changes
nothing; `ledOn`, `blinkMode` and `blinkInterval` are never changed. -/
theorem handleBlinking_step (s : State) (now : Nat) :
    (s.blinkMode = false → handleBlinking now s = s) ∧
    (s.blinkMode = true → usub now s.lastBlinkTime ≥ s.blinkInterval →
      handleBlinking now s = { s with lastBlinkTime := now, ledPin := !s.ledPin }) ∧
    (s.blinkMode = true → usub now s.lastBlinkTime < s.blinkInterval →
      handleBlinking now s = s) ∧
    ((handleBlinking now s).ledOn = s.ledOn ∧
      (handleBlinking now s).blinkMode = s.blinkMode ∧
      (handleBlinking now s).blinkInterval = s.blinkInterval) := by
  refine ⟨handleBlinking_off s now, handleBlinking_due s now,
    fun _ h => handleBlinking_early s now h, ?_⟩
  unfold handleBlinking
  split_ifs <;> exact ⟨rfl, rfl, rfl⟩

/-- C12, at 1700 with `lastBlinkTime = 1000` and the interval 500: the pin is
inverted and `lastBlinkTime` becomes 1700, not 1500. -/
theorem handleBlinking_step_witness :
    handleBlinking 1700 { initState with blinkMode := true, lastBlinkTime := 1000 } =
      { initState with blinkMode := true, lastBlinkTime := 1700, ledPin := HIGH } :=
  (handleBlinking_step { initState with blinkMode := true, lastBlinkTime := 1000 } 1700).2.1
    rfl (by decide)

/-- C15: with the tick counter taken modulo `2^32`, for a start time `start` and an
elapsed time `d < 2^32` the difference computed at `now = (start + d) mod 2^32` is
`d`; so `handleBlinking` toggles exactly when `d ≥ blinkInterval`, and the test of
the debouncer on an unchanged reading holds exactly when `d > debounceDelay`. -/
theorem elapsed_wraparound_safe (start d : Nat) (hd : d < ULONG_MOD) :
    usub ((start + d) % ULONG_MOD) start = d ∧
    (∀ s : State, s.blinkMode = true → s.lastBlinkTime = start →
      ((handleBlinking ((start + d) % ULONG_MOD) s).ledPin = (!s.ledPin) ↔
        d ≥ s.blinkInterval)) ∧
    (∀ (s : State) (inp : Input), s.lastButtonTime = start →
      inp.reading = s.lastButtonState → inp.now = (start + d) % ULONG_MOD →
      (loop inp s).stableState =
        (if d > debounceDelay ∧ inp.reading ≠ s.stableState then inp.reading
          else s.stableState)) := by
  have hu := usub_add_mod start d hd
  refine ⟨hu, ?_, ?_⟩
  · intro s hb hl
    by_cases hge : d ≥ s.blinkInterval
    · rw [handleBlinking_due s _ hb (by rw [hl, hu]; exact hge)]
      simp [hge]
    · rw [handleBlinking_early s _ (by rw [hl, hu]; omega)]
      cases s.ledPin <;> simp [hge]
  · intro s inp hl hr hn
    obtain ⟨_, _, h3, _⟩ := loop_button inp s
    rw [h3]
    have hacc : Accepts inp.reading inp.now s ↔
        (d > debounceDelay ∧ inp.reading ≠ s.stableState) := by
      unfold Accepts
      rw [if_neg (not_not.mpr hr), hn, hl, hu]
    simp only [hacc]

/-- C15, across a wraparound: started 6 ticks before the counter wraps, read at
counter value 44, the elapsed time is 50. -/
theorem elapsed_wraparound_safe_witness :
    usub ((4294967290 + 50) % ULONG_MOD) 4294967290 = 50 :=
  (elapsed_wraparound_safe 4294967290 50 (by decide)).1

/-! ## The viewport -/

theorem redraw_draws_eq (s : State) (hr : ¬ Rendered s)
    (hc : 0 < getMenuItemCount s.currentMenu) :
    redrawMenuIfNeeded s =
      { s with
        selectedIndex := max 0 (min s.selectedIndex (getMenuItemCount s.currentMenu - 1))
        viewOffset := adjustViewOffset
          (max 0 (min s.selectedIndex (getMenuItemCount s.currentMenu - 1)))
          s.viewOffset (getMenuItemCount s.currentMenu)
        frames := s.frames ++ [Frame.menu s.currentMenu
          (max 0 (min s.selectedIndex (getMenuItemCount s.currentMenu - 1)))
          (adjustViewOffset (max 0 (min s.selectedIndex (getMenuItemCount s.currentMenu - 1)))
            s.viewOffset (getMenuItemCount s.currentMenu))
          (menuTitles.get? s.currentMenu)
          (drawRows (getMenuItems s.currentMenu)
            (max 0 (min s.selectedIndex (getMenuItemCount s.currentMenu - 1)))
            (getMenuItemCount s.currentMenu)
            (adjustViewOffset (max 0 (min s.selectedIndex (getMenuItemCount s.currentMenu - 1)))
              s.viewOffset (getMenuItemCount s.currentMenu) + maxVisibleItems)
            maxVisibleItems.toNat
            (adjustViewOffset (max 0 (min s.selectedIndex (getMenuItemCount s.currentMenu - 1)))
              s.viewOffset (getMenuItemCount s.currentMenu))
            12)
          s.ledOn s.blinkMode (statusLine s.ledOn s.blinkMode)]
        lastMenu := s.currentMenu
        lastSelectedIndex := max 0 (min s.selectedIndex (getMenuItemCount s.currentMenu - 1))
        lastViewOffset := adjustViewOffset
          (max 0 (min s.selectedIndex (getMenuItemCount s.currentMenu - 1)))
          s.viewOffset (getMenuItemCount s.currentMenu) } := by
  have hsel : (if (if s.selectedIndex < 0 then 0 else s.selectedIndex) ≥
        getMenuItemCount s.currentMenu then getMenuItemCount s.currentMenu - 1
      else (if s.selectedIndex < 0 then 0 else s.selectedIndex)) =
      max 0 (min s.selectedIndex (getMenuItemCount s.currentMenu - 1)) := by
    split_ifs <;> omega
  unfold redrawMenuIfNeeded
  unfold Rendered at hr
  rw [if_neg hr]
  simp only [if_neg (not_le.mpr hc), hsel]

theorem redraw_rendered_eq (s : State) (hr : Rendered s) : redrawMenuIfNeeded s = s := by
  unfold redrawMenuIfNeeded
  unfold Rendered at hr
  rw [if_pos hr]

/-- C16: for a menu of `count ≥ 1` items, a selection in `[0, count - 1]` and any
starting offset, the offset computed by the scrolling step of `redrawMenuIfNeeded`
has the selection in its window and lies in `[0, max 0 (count - maxVisibleItems)]`;
when `redrawMenuIfNeeded` draws, this is the offset it stores. -/
theorem adjustViewOffset_postcondition (count selectedIndex viewOffset : Int)
    (hc : 1 ≤ count) (hs : 0 ≤ selectedIndex ∧ selectedIndex ≤ count - 1) :
    (adjustViewOffset selectedIndex viewOffset count ≤ selectedIndex ∧
      selectedIndex < adjustViewOffset selectedIndex viewOffset count + maxVisibleItems) ∧
    (0 ≤ adjustViewOffset selectedIndex viewOffset count ∧
      adjustViewOffset selectedIndex viewOffset count ≤ max 0 (count - maxVisibleItems)) ∧
    (∀ s : State, ¬ Rendered s → getMenuItemCount s.currentMenu = count →
      (0 ≤ (redrawMenuIfNeeded s).selectedIndex ∧
        (redrawMenuIfNeeded s).selectedIndex ≤ count - 1) ∧
      (redrawMenuIfNeeded s).viewOffset =
        adjustViewOffset (redrawMenuIfNeeded s).selectedIndex s.viewOffset count) := by
  refine ⟨?_, ?_, ?_⟩
  · unfold adjustViewOffset
    simp only [maxVisibleItems]
    split_ifs <;> omega
  · unfold adjustViewOffset
    simp only [maxVisibleItems]
    split_ifs <;> omega
  · intro s hr hcount
    rw [redraw_draws_eq s hr (by omega), hcount]
    dsimp only
    exact ⟨by omega, rfl⟩

/-- C16, on a menu of 9 items with the selection at 7 and a negative offset. -/
theorem adjustViewOffset_postcondition_witness :
    adjustViewOffset 7 (-3) 9 ≤ 7 ∧ 7 < adjustViewOffset 7 (-3) 9 + maxVisibleItems :=
  (adjustViewOffset_postcondition 9 7 (-3) (by decide) (by decide)).1

/-- C17: for a menu of `count ≥ 1` items, a selection in `[0, count - 1]` and a
starting offset in `[0, max 0 (count - maxVisibleItems)]`, the new offset is the
selection when the selection is above the window, the selection minus
`maxVisibleItems - 1` when it is below, and the old offset otherwise; the clamp
changes none of these. -/
theorem adjustViewOffset_minimal (count selectedIndex viewOffset : Int)
    (hc : 1 ≤ count) (hs : 0 ≤ selectedIndex ∧ selectedIndex ≤ count - 1)
    (hv : 0 ≤ viewOffset ∧ viewOffset ≤ max 0 (count - maxVisibleItems)) :
    (selectedIndex < viewOffset →
      adjustViewOffset selectedIndex viewOffset count = selectedIndex) ∧
    (selectedIndex ≥ viewOffset + maxVisibleItems →
      adjustViewOffset selectedIndex viewOffset count =
        selectedIndex - maxVisibleItems + 1) ∧
    (viewOffset ≤ selectedIndex ∧ selectedIndex < viewOffset + maxVisibleItems →
      adjustViewOffset selectedIndex viewOffset count = viewOffset) := by
  unfold adjustViewOffset
  simp only [maxVisibleItems] at hv ⊢
  refine ⟨?_, ?_, ?_⟩
  · intro h
    split_ifs <;> omega
  · intro h
    split_ifs <;> omega
  · intro h
    split_ifs <;> omega

/-- C17, on a menu of 9 items: selection 7 below the window at offset 1 gives offset
3, selection 0 above the window at offset 2 gives offset 0. -/
theorem adjustViewOffset_minimal_witness :
    adjustViewOffset 7 1 9 = 7 - maxVisibleItems + 1 ∧ adjustViewOffset 0 2 9 = 0 :=
  ⟨(adjustViewOffset_minimal 9 7 1 (by decide) (by decide) (by decide)).2.1 (by decide),
    (adjustViewOffset_minimal 9 0 2 (by decide) (by decide) (by decide)).1 (by decide)⟩

/-! ## Reachable states -/

theorem setup_ok : setup true initState = some bootState := rfl

theorem debounceButton_fire (r : Bool) (now np : Nat) (s : State)
    (hacc : Accepts r now s) (hr : r = LOW) :
    debounceButton r now np s =
      withButton (handleButtonPress np (withButton s s.lastButtonState s.lastButtonTime LOW))
        LOW
        (handleButtonPress np (withButton s s.lastButtonState s.lastButtonTime LOW)).lastButtonTime
        (handleButtonPress np (withButton s s.lastButtonState s.lastButtonTime LOW)).stableState
      := by
  subst hr
  obtain ⟨h1, h2⟩ := hacc
  have hchg : ¬ (LOW ≠ s.lastButtonState) := by
    intro hne
    rw [if_pos hne, usub_self] at h1
    exact absurd h1 (by decide)
  rw [if_neg hchg] at h1
  simp only [debounceButton, if_neg hchg, if_pos h1, if_pos h2, if_true]
  rfl

theorem debounceButton_quiet (r : Bool) (now np : Nat) (s : State)
    (h : ¬ (Accepts r now s ∧ r = LOW)) :
    debounceButton r now np s =
      withButton s r (if r ≠ s.lastButtonState then now else s.lastButtonTime)
        (if Accepts r now s then r else s.stableState) := by
  by_cases hchg : r ≠ s.lastButtonState
  · have hna : ¬ Accepts r now s := by
      rintro ⟨h1, _⟩
      rw [if_pos hchg, usub_self] at h1
      exact absurd h1 (by decide)
    have h0 : ¬ (usub now now > debounceDelay) := by
      rw [usub_self]
      decide
    simp only [debounceButton, if_pos hchg, if_neg hna, if_neg h0]
    rfl
  · by_cases h1 : usub now s.lastButtonTime > debounceDelay
    · by_cases h2 : r ≠ s.stableState
      · have hacc : Accepts r now s := by
          unfold Accepts
          rw [if_neg hchg]
          exact ⟨h1, h2⟩
        have hr : r = HIGH := by
          cases hrr : r
          · exact absurd ⟨hacc, hrr⟩ h
          · rfl
        have hl : ¬ (r = LOW) := by
          rw [hr]
          decide
        simp only [debounceButton, if_neg hchg, if_pos h1, if_pos h2, if_pos hacc, if_neg hl]
        rfl
      · have hna : ¬ Accepts r now s := fun ha => h2 ha.2
        simp only [debounceButton, if_neg hchg, if_pos h1, if_neg h2, if_neg hna]
        rfl
    · have hna : ¬ Accepts r now s := by
        rintro ⟨a1, _⟩
        rw [if_neg hchg] at a1
        exact h1 a1
      simp only [debounceButton, if_neg hchg, if_neg h1, if_neg hna]
      rfl

/-- A property kept by the four functions and not depending on the debouncer fields
is kept by a pass of `loop`. -/
theorem loop_preserves (P : State → Prop)
    (hpot : ∀ r s, P s → P (updateSelectionFromPot r s))
    (hredraw : ∀ s, P s → P (redrawMenuIfNeeded s))
    (hpress : ∀ now s, P s → P (handleButtonPress now s))
    (hblink : ∀ now s, P s → P (handleBlinking now s))
    (hbtn : ∀ s a b c, P s → P (withButton s a b c))
    (inp : Input) (s : State) (h : P s) : P (loop inp s) := by
  unfold loop
  apply hblink
  have hR := hredraw _ (hpot inp.pot s h)
  by_cases hf : Accepts inp.reading inp.now
      (redrawMenuIfNeeded (updateSelectionFromPot inp.pot s)) ∧ inp.reading = LOW
  · rw [debounceButton_fire _ _ _ _ hf.1 hf.2]
    exact hbtn _ _ _ _ (hpress _ _ (hbtn _ _ _ _ hR))
  · rw [debounceButton_quiet _ _ _ _ hf]
    exact hbtn _ _ _ _ hR

/-- Induction over the reachable states. -/
theorem reachable_induction (P : State → Prop) (h0 : P initState) (hb : P bootState)
    (hpot : ∀ r s, P s → P (updateSelectionFromPot r s))
    (hredraw : ∀ s, P s → P (redrawMenuIfNeeded s))
    (hpress : ∀ now s, P s → P (handleButtonPress now s))
    (hblink : ∀ now s, P s → P (handleBlinking now s))
    (hbtn : ∀ s a b c, P s → P (withButton s a b c))
    (s : State) (h : Reachable s) : P s := by
  induction h with
  | start => exact h0
  | boot => exact hb
  | op s o _ ih =>
    cases o with
    | pot r => exact hpot r s ih
    | redraw => exact hredraw s ih
    | press now => exact hpress now s ih
    | blink now => exact hblink now s ih
  | tick s inp _ ih => exact loop_preserves P hpot hredraw hpress hblink hbtn inp s ih

theorem reachable_runOps (s : State) (ops : List Op) (h : Reachable s) :
    Reachable (runOps s ops) := by
  induction ops generalizing s with
  | nil => exact h
  | cons o rest ih => exact ih (applyOp s o) (Reachable.op s o h)

theorem reachable_runLoop (s : State) (inps : List Input) (h : Reachable s) :
    Reachable (runLoop s inps) := by
  induction inps generalizing s with
  | nil => exact h
  | cons i rest ih => exact ih (loop i s) (Reachable.tick s i h)

theorem reachable_menuInv (s : State) (h : Reachable s) : MenuInv s := by
  refine reachable_induction MenuInv ?_ ?_ (fun r s h => menuInv_pot s r h)
    (fun s h => menuInv_redraw s h) (fun now s h => menuInv_press s now h)
    (fun now s h => menuInv_blink s now h) (fun s a b c h => h) s h
  · rw [menuInv_iff]
    decide
  · rw [menuInv_iff]
    decide

theorem pot_eq_with (r : Int) (s : State) :
    updateSelectionFromPot r s =
      { s with selectedIndex := (updateSelectionFromPot r s).selectedIndex } := by
  unfold updateSelectionFromPot
  simp only []
  split_ifs <;> rfl

theorem pot_range (r : Int) (s : State) (hc : 0 < getMenuItemCount s.currentMenu) :
    0 ≤ (updateSelectionFromPot r s).selectedIndex ∧
    (updateSelectionFromPot r s).selectedIndex ≤ getMenuItemCount s.currentMenu - 1 := by
  unfold updateSelectionFromPot
  simp only []
  split_ifs
  all_goals (try dsimp only)
  all_goals omega

theorem pot_same_of_selectedIndex (r : Int) (s : State)
    (h : (updateSelectionFromPot r s).selectedIndex = s.selectedIndex) :
    updateSelectionFromPot r s = s := by
  rw [pot_eq_with, h]

theorem redraw_nocount (s : State) (hc : getMenuItemCount s.currentMenu ≤ 0) :
    redrawMenuIfNeeded s = s := by
  unfold redrawMenuIfNeeded
  simp only [if_pos hc, ite_self]

theorem press_sentinels (now : Nat) (s : State) :
    (handleButtonPress now s).lastMenu = 255 ∧
    (handleButtonPress now s).lastSelectedIndex = -1 ∧
    (handleButtonPress now s).lastViewOffset = -1 ∧
    (handleButtonPress now s).frames = s.frames := by
  refine ⟨rfl, rfl, rfl, ?_⟩
  unfold handleButtonPress pressMain pressSettings pressSpeed
  simp only []
  split_ifs <;> rfl

theorem blink_cases (now : Nat) (s : State) :
    handleBlinking now s = s ∨
    (s.blinkMode = true ∧
      handleBlinking now s = { s with lastBlinkTime := now, ledPin := !s.ledPin }) := by
  by_cases hb : s.blinkMode = true
  · by_cases hd : usub now s.lastBlinkTime ≥ s.blinkInterval
    · exact Or.inr ⟨hb, handleBlinking_due s now hb hd⟩
    · exact Or.inl (handleBlinking_early s now (Nat.not_le.mp hd))
  · exact Or.inl (handleBlinking_off s now (Bool.eq_false_iff.mpr hb))

theorem ledInv_press (now : Nat) (s : State) (h : LedInv s) :
    LedInv (handleButtonPress now s) := by
  unfold LedInv at h ⊢
  unfold handleButtonPress pressMain pressSettings pressSpeed
  simp only []
  split_ifs <;> simp_all

theorem ledInv_blink (now : Nat) (s : State) (h : LedInv s) :
    LedInv (handleBlinking now s) := by
  rcases blink_cases now s with e | ⟨hb, e⟩
  · rw [e]
    exact h
  · rw [e]
    intro hoff
    have hoff2 : s.blinkMode = false := hoff
    rw [hb] at hoff2
    exact absurd hoff2 (by decide)

theorem ledInv_redraw (s : State) (h : LedInv s) : LedInv (redrawMenuIfNeeded s) := by
  by_cases hr : Rendered s
  · rw [redraw_rendered_eq s hr]
    exact h
  · by_cases hc : 0 < getMenuItemCount s.currentMenu
    · rw [redraw_draws_eq s hr hc]
      exact h
    · rw [redraw_nocount s (by omega)]
      exact h

theorem ledInv_pot (r : Int) (s : State) (h : LedInv s) :
    LedInv (updateSelectionFromPot r s) := by
  rw [pot_eq_with]
  exact h

theorem reachable_ledInv (s : State) (h : Reachable s) : LedInv s := by
  refine reachable_induction LedInv ?_ ?_ ledInv_pot ledInv_redraw ledInv_press ledInv_blink
    (fun s a b c h => h) s h
  · intro _
    rfl
  · intro _
    rfl

/-! ## The LED output and the status line -/

/-- C19: in every state reached from the initial state by calls of
`handleButtonPress`, `handleBlinking`, `updateSelectionFromPot` and
`redrawMenuIfNeeded` in any order (and also by `setup` and whole passes of `loop`),
while `blinkMode` is false the LED pin shows `ledOn`. -/
theorem led_output_matches_ledOn (ops : List Op) :
    (initState.ledOn = false ∧ initState.blinkMode = false ∧ initState.ledPin = LOW) ∧
    ((runOps initState ops).blinkMode = false →
      ((runOps initState ops).ledPin = HIGH ↔ (runOps initState ops).ledOn = true)) ∧
    (∀ s : State, Reachable s → s.blinkMode = false → s.ledPin = s.ledOn) := by
  refine ⟨⟨rfl, rfl, rfl⟩, ?_, fun s h => reachable_ledInv s h⟩
  intro hoff
  rw [reachable_ledInv _ (reachable_runOps initState ops Reachable.start) hoff]

/-- C19, after switching the LED on, blinking on and blinking off again. -/
theorem led_output_matches_ledOn_witness :
    (runOps initState [Op.press 1, Op.pot 300, Op.press 5, Op.blink 700, Op.press 800]).ledPin
      = HIGH :=
  ((led_output_matches_ledOn
    [Op.press 1, Op.pot 300, Op.press 5, Op.blink 700, Op.press 800]).2.1 (by decide)).mpr
    (by decide)

theorem menuInv_currentMenu_ne (s : State) (h : MenuInv s) : s.currentMenu ≠ 255 := by
  rw [menuInv_iff] at h
  rcases getMenuItemCount_pos_cases s.currentMenu (by omega) with hm | hm | hm <;>
    rw [hm] <;> decide

theorem menuInv_count_pos (s : State) (h : MenuInv s) : 0 < getMenuItemCount s.currentMenu := by
  rw [menuInv_iff] at h
  omega

theorem sentinelInv_pot (r : Int) (s : State) (h : SentinelInv s) :
    SentinelInv (updateSelectionFromPot r s) := by
  rw [pot_eq_with]
  exact h

theorem redraw_draws_last (s : State) (hr : ¬ Rendered s)
    (hc : 0 < getMenuItemCount s.currentMenu) :
    ∃ f : Frame, (redrawMenuIfNeeded s).frames = s.frames ++ [f] ∧
      f.drawnFrom = some (snapshot (redrawMenuIfNeeded s)) ∧
      Rendered (redrawMenuIfNeeded s) := by
  rw [redraw_draws_eq s hr hc]
  exact ⟨_, rfl, rfl, rfl, rfl, rfl⟩

theorem sentinelInv_redraw (s : State) (h : SentinelInv s) :
    SentinelInv (redrawMenuIfNeeded s) := by
  by_cases hr : Rendered s
  · rw [redraw_rendered_eq s hr]
    exact h
  · by_cases hc : 0 < getMenuItemCount s.currentMenu
    · obtain ⟨f, e1, e2, e3⟩ := redraw_draws_last s hr hc
      intro _
      rw [e1, List.getLast?_concat, Option.some_bind]
      rw [e2]
      unfold snapshot
      rw [e3.1, e3.2.1, e3.2.2]
    · rw [redraw_nocount s (by omega)]
      exact h

theorem sentinelInv_press (now : Nat) (s : State) : SentinelInv (handleButtonPress now s) := by
  intro hne
  exact absurd (press_sentinels now s).1 hne

theorem sentinelInv_blink (now : Nat) (s : State) (h : SentinelInv s) :
    SentinelInv (handleBlinking now s) := by
  rcases blink_cases now s with e | ⟨_, e⟩
  · rw [e]
    exact h
  · rw [e]
    exact h

theorem reachable_sentinelInv (s : State) (h : Reachable s) : SentinelInv s := by
  refine reachable_induction SentinelInv ?_ ?_ sentinelInv_pot sentinelInv_redraw
    (fun now s _ => sentinelInv_press now s) sentinelInv_blink (fun s a b c h => h) s h
  · intro hne
    exact absurd rfl hne
  · intro _
    rfl

/-- After `redrawMenuIfNeeded` returns in a reachable state, nothing is left to draw
and the most recent frame shows the current values. -/
theorem reachable_redraw_current (s : State) (h : Reachable s) :
    Rendered (redrawMenuIfNeeded s) ∧ LastDrawCurrent (redrawMenuIfNeeded s) := by
  have hm := reachable_menuInv s h
  by_cases hr : Rendered s
  · rw [redraw_rendered_eq s hr]
    refine ⟨hr, ?_⟩
    have hk := reachable_sentinelInv s h
      (by rw [← hr.1]; exact menuInv_currentMenu_ne s hm)
    unfold LastDrawCurrent snapshot
    rw [hk, hr.1, hr.2.1, hr.2.2]
  · obtain ⟨f, e1, e2, e3⟩ := redraw_draws_last s hr (menuInv_count_pos s hm)
    refine ⟨e3, ?_⟩
    unfold LastDrawCurrent
    rw [e1, List.getLast?_concat, Option.some_bind]
    exact e2

/-- C20: in an execution of `setup` followed by passes of `loop`, right after every
return of `redrawMenuIfNeeded` (at the end of `setup` and in each pass) the most
recent frame was drawn from the current values of `currentMenu`, `selectedIndex`,
`viewOffset`, `ledOn` and `blinkMode`; `ledOn` and `blinkMode` are changed by
`handleButtonPress` only, which always resets the last-rendered sentinels. -/
theorem status_line_never_stale (inps : List Input) (inp : Input) :
    setup true initState = some bootState ∧
    (bootState.frames.getLast?).bind Frame.drawnFrom = some (snapshot bootState) ∧
    ((redrawMenuIfNeeded (updateSelectionFromPot inp.pot (runLoop bootState inps))).frames.getLast?).bind
        Frame.drawnFrom =
      some (snapshot (redrawMenuIfNeeded
        (updateSelectionFromPot inp.pot (runLoop bootState inps)))) ∧
    (∀ (s : State) (r : Int) (now : Nat),
      ((updateSelectionFromPot r s).ledOn = s.ledOn ∧
        (updateSelectionFromPot r s).blinkMode = s.blinkMode) ∧
      ((redrawMenuIfNeeded s).ledOn = s.ledOn ∧ (redrawMenuIfNeeded s).blinkMode = s.blinkMode) ∧
      ((handleBlinking now s).ledOn = s.ledOn ∧ (handleBlinking now s).blinkMode = s.blinkMode) ∧
      ((handleButtonPress now s).lastMenu = 255 ∧
        (handleButtonPress now s).lastSelectedIndex = -1 ∧
        (handleButtonPress now s).lastViewOffset = -1)) := by
  refine ⟨rfl, rfl, ?_, ?_⟩
  · exact (reachable_redraw_current _
      (Reachable.op _ (Op.pot inp.pot) (reachable_runLoop bootState inps Reachable.boot))).2
  · intro s r now
    refine ⟨?_, ?_, ?_, ?_⟩
    · rw [pot_eq_with]
      exact ⟨rfl, rfl⟩
    · by_cases hr : Rendered s
      · rw [redraw_rendered_eq s hr]
        exact ⟨rfl, rfl⟩
      · by_cases hc : 0 < getMenuItemCount s.currentMenu
        · rw [redraw_draws_eq s hr hc]
          exact ⟨rfl, rfl⟩
        · rw [redraw_nocount s (by omega)]
          exact ⟨rfl, rfl⟩
    · rcases blink_cases now s with e | ⟨_, e⟩ <;> rw [e] <;> exact ⟨rfl, rfl⟩
    · exact ⟨(press_sentinels now s).1, (press_sentinels now s).2.1, (press_sentinels now s).2.2.1⟩

/-! ## The redraw gate -/

theorem quiet_ops_keep (mids : List Op) (t : State) (hq : ∀ o ∈ mids, o.isQuiet = true) :
    (runOps t mids).lastMenu = t.lastMenu ∧ (runOps t mids).frames = t.frames := by
  induction mids generalizing t with
  | nil => exact ⟨rfl, rfl⟩
  | cons o rest ih =>
    have hstep : runOps t (o :: rest) = runOps (applyOp t o) rest := rfl
    obtain ⟨r1, r2⟩ := ih (applyOp t o) (fun x hx => hq x (List.mem_cons_of_mem _ hx))
    have ho := hq o (List.mem_cons_self _ _)
    rw [hstep, r1, r2]
    cases o with
    | pot r =>
      show (updateSelectionFromPot r t).lastMenu = t.lastMenu ∧
        (updateSelectionFromPot r t).frames = t.frames
      rw [pot_eq_with]
      exact ⟨rfl, rfl⟩
    | blink now =>
      show (handleBlinking now t).lastMenu = t.lastMenu ∧ (handleBlinking now t).frames = t.frames
      rcases blink_cases now t with e | ⟨_, e⟩ <;> rw [e] <;> exact ⟨rfl, rfl⟩
    | redraw => simp [Op.isQuiet] at ho
    | press now => simp [Op.isQuiet] at ho

theorem loop_eq (inp : Input) (s : State) :
    loop inp s = handleBlinking inp.nowBlink (debounceButton inp.reading inp.now inp.nowPress
      (redrawMenuIfNeeded (updateSelectionFromPot inp.pot s))) := rfl

theorem blink_keeps (now : Nat) (s : State) :
    (handleBlinking now s).lastMenu = s.lastMenu ∧ (handleBlinking now s).frames = s.frames ∧
    snapshot (handleBlinking now s) = snapshot s ∧
    (Rendered (handleBlinking now s) ↔ Rendered s) := by
  rcases blink_cases now s with e | ⟨_, e⟩ <;> rw [e] <;> exact ⟨rfl, rfl, rfl, Iff.rfl⟩

theorem loop_fired_lastMenu (inp : Input) (s : State)
    (hp : pressCount (loop inp s) = pressCount s + 1) : (loop inp s).lastMenu = 255 := by
  obtain ⟨_, _, _, h4⟩ := loop_button inp s
  have hf : Accepts inp.reading inp.now s ∧ inp.reading = LOW := by
    by_contra hc
    rw [if_neg hc] at h4
    omega
  obtain ⟨⟨a1, a2, a3⟩, _⟩ := pot_sameButton inp.pot s
  obtain ⟨⟨b1, b2, b3⟩, _⟩ := redraw_sameButton (updateSelectionFromPot inp.pot s)
  have hacc := (accepts_congr inp.reading inp.now s
    (redrawMenuIfNeeded (updateSelectionFromPot inp.pot s))
    ⟨b1.trans a1, b2.trans a2, b3.trans a3⟩).mpr hf.1
  rw [loop_eq, (blink_keeps _ _).1, debounceButton_fire _ _ _ _ hacc hf.2]
  rfl

/-- In a reachable state whose `lastMenu` is the sentinel 255, `redrawMenuIfNeeded`
draws one frame, from the values it leaves in the state. -/
theorem redraw_after_invalidate (u : State) (h : Reachable u) (hl : u.lastMenu = 255) :
    ∃ f : Frame, (redrawMenuIfNeeded u).frames = u.frames ++ [f] ∧
      f.drawnFrom = some (snapshot (redrawMenuIfNeeded u)) := by
  have hm := reachable_menuInv u h
  have hr : ¬ Rendered u := by
    intro hr
    exact menuInv_currentMenu_ne u hm (hr.1.trans hl)
  obtain ⟨f, e1, e2, _⟩ := redraw_draws_last u hr (menuInv_count_pos u hm)
  exact ⟨f, e1, e2⟩

/-- C13: in every reachable state, the first `redrawMenuIfNeeded` call after a
`handleButtonPress` call draws a frame, whatever the press did: with only
`updateSelectionFromPot` and `handleBlinking` calls in between, and in the pass of
`loop` that follows a pass in which the press was handled. -/
theorem press_forces_redraw (s : State) (h : Reachable s) :
    (∀ (now : Nat) (mids : List Op), (∀ o ∈ mids, o.isQuiet = true) →
      (runOps (handleButtonPress now s) mids).frames = s.frames ∧
      ∃ f : Frame,
        (redrawMenuIfNeeded (runOps (handleButtonPress now s) mids)).frames =
          (runOps (handleButtonPress now s) mids).frames ++ [f] ∧
        f.drawnFrom =
          some (snapshot (redrawMenuIfNeeded (runOps (handleButtonPress now s) mids)))) ∧
    (∀ inp next : Input, pressCount (loop inp s) = pressCount s + 1 →
      ∃ f : Frame,
        (redrawMenuIfNeeded (updateSelectionFromPot next.pot (loop inp s))).frames =
          (loop inp s).frames ++ [f] ∧
        f.drawnFrom =
          some (snapshot (redrawMenuIfNeeded (updateSelectionFromPot next.pot (loop inp s))))) := by
  constructor
  · intro now mids hq
    obtain ⟨q1, q2⟩ := quiet_ops_keep mids (handleButtonPress now s) hq
    refine ⟨q2.trans (press_sentinels now s).2.2.2, ?_⟩
    exact redraw_after_invalidate _
      (reachable_runOps _ mids (Reachable.op s (Op.press now) h))
      (q1.trans (press_sentinels now s).1)
  · intro inp next hp
    have hl := loop_fired_lastMenu inp s hp
    have hpot : (updateSelectionFromPot next.pot (loop inp s)).lastMenu = 255 ∧
        (updateSelectionFromPot next.pot (loop inp s)).frames = (loop inp s).frames := by
      rw [pot_eq_with]
      exact ⟨hl, rfl⟩
    obtain ⟨f, e1, e2⟩ := redraw_after_invalidate
      (updateSelectionFromPot next.pot (loop inp s))
      (Reachable.op _ (Op.pot next.pot) (Reachable.tick s inp h)) hpot.1
    exact ⟨f, by rw [e1, hpot.2], e2⟩

/-- C13, on a press of (MAIN, 0) after the menu was drawn: the menu, the selection
and the offset are as at the last draw and a frame is drawn all the same. -/
theorem press_forces_redraw_witness :
    ∃ f : Frame,
      (redrawMenuIfNeeded (runOps (handleButtonPress 9
        (redrawMenuIfNeeded bootState)) [Op.blink 10, Op.pot 0])).frames =
        (runOps (handleButtonPress 9 (redrawMenuIfNeeded bootState))
          [Op.blink 10, Op.pot 0]).frames ++ [f] ∧
      f.drawnFrom = some (snapshot (redrawMenuIfNeeded (runOps (handleButtonPress 9
        (redrawMenuIfNeeded bootState)) [Op.blink 10, Op.pot 0]))) :=
  ((press_forces_redraw (redrawMenuIfNeeded bootState)
    (Reachable.op bootState Op.redraw Reachable.boot)).1 9 [Op.blink 10, Op.pot 0]
    (by decide)).2

theorem pot_nocount (r : Int) (s : State) (hc : getMenuItemCount s.currentMenu ≤ 0) :
    updateSelectionFromPot r s = s := by
  unfold updateSelectionFromPot
  simp only [if_pos hc]

/-- A pass of `loop` from a state with nothing to draw, in which no press is handled
and after which the drawn values are as before: the redraw call returns the state as
it was, nothing is drawn, and there is still nothing to draw. -/
theorem quiet_tick (t : State) (i : Input) (hr : Rendered t)
    (hsnap : snapshot (loop i t) = snapshot t)
    (hp : pressCount (loop i t) = pressCount t) :
    redrawMenuIfNeeded (updateSelectionFromPot i.pot t) = t ∧
    (loop i t).frames = t.frames ∧ Rendered (loop i t) := by
  obtain ⟨_, _, _, h4⟩ := loop_button i t
  have hnf : ¬ (Accepts i.reading i.now t ∧ i.reading = LOW) := by
    intro hc
    rw [if_pos hc] at h4
    omega
  obtain ⟨⟨a1, a2, a3⟩, _⟩ := pot_sameButton i.pot t
  obtain ⟨⟨b1, b2, b3⟩, _⟩ := redraw_sameButton (updateSelectionFromPot i.pot t)
  have hcongr := accepts_congr i.reading i.now t
    (redrawMenuIfNeeded (updateSelectionFromPot i.pot t))
    ⟨b1.trans a1, b2.trans a2, b3.trans a3⟩
  have hnf2 : ¬ (Accepts i.reading i.now (redrawMenuIfNeeded (updateSelectionFromPot i.pot t)) ∧
      i.reading = LOW) := fun hc => hnf ⟨hcongr.mp hc.1, hc.2⟩
  have hloop := loop_eq i t
  rw [debounceButton_quiet _ _ _ _ hnf2] at hloop
  have hsnapR : snapshot (redrawMenuIfNeeded (updateSelectionFromPot i.pot t)) = snapshot t := by
    rw [← hsnap, hloop, (blink_keeps _ _).2.2.1]
    rfl
  have hPeq := pot_eq_with i.pot t
  have hP : updateSelectionFromPot i.pot t = t := by
    by_contra hne
    have hsel : (updateSelectionFromPot i.pot t).selectedIndex ≠ t.selectedIndex :=
      fun h => hne (pot_same_of_selectedIndex i.pot t h)
    have hc : 0 < getMenuItemCount t.currentMenu := by
      by_contra hc
      exact hne (pot_nocount i.pot t (by omega))
    have hrange := pot_range i.pot t hc
    have hPm : (updateSelectionFromPot i.pot t).currentMenu = t.currentMenu := by
      rw [hPeq]
    have hPl : (updateSelectionFromPot i.pot t).lastSelectedIndex = t.lastSelectedIndex := by
      rw [hPeq]
    have hnr : ¬ Rendered (updateSelectionFromPot i.pot t) := by
      intro h
      apply hsel
      rw [h.2.1, hPl]
      exact hr.2.1.symm
    have hRsel : (redrawMenuIfNeeded (updateSelectionFromPot i.pot t)).selectedIndex =
        (updateSelectionFromPot i.pot t).selectedIndex := by
      rw [redraw_draws_eq _ hnr (by rw [hPm]; exact hc)]
      dsimp only
      rw [hPm]
      omega
    have h2 : (redrawMenuIfNeeded (updateSelectionFromPot i.pot t)).selectedIndex =
        t.selectedIndex := congrArg (fun x => x.2.1) hsnapR
    exact hsel (hRsel.symm.trans h2)
  have hR : redrawMenuIfNeeded (updateSelectionFromPot i.pot t) = t := by
    rw [hP]
    exact redraw_rendered_eq t hr
  refine ⟨hR, ?_, ?_⟩
  · rw [hloop, (blink_keeps _ _).2.1, hR]
    rfl
  · rw [hloop, (blink_keeps _ _).2.2.2, hR]
    exact hr

theorem pressCount_loop_mono (i : Input) (s : State) : pressCount s ≤ pressCount (loop i s) := by
  obtain ⟨_, _, _, h4⟩ := loop_button i s
  rw [h4]
  exact Nat.le_add_right _ _

theorem pressCount_runLoop_mono (inps : List Input) (s : State) :
    pressCount s ≤ pressCount (runLoop s inps) := by
  induction inps generalizing s with
  | nil => exact Nat.le_refl _
  | cons i rest ih => exact Nat.le_trans (pressCount_loop_mono i s) (ih (loop i s))

theorem quiet_ticks (inps : List Input) (t : State) (hr : Rendered t)
    (hq : ∀ pre post, inps = pre ++ post → snapshot (runLoop t pre) = snapshot t)
    (hp : pressCount (runLoop t inps) = pressCount t) :
    (runLoop t inps).frames = t.frames ∧ Rendered (runLoop t inps) ∧
    ∀ pre i post, inps = pre ++ i :: post →
      redrawMenuIfNeeded (updateSelectionFromPot i.pot (runLoop t pre)) = runLoop t pre := by
  induction inps generalizing t with
  | nil =>
    refine ⟨rfl, hr, ?_⟩
    intro pre i post h
    exact absurd h (by simp)
  | cons x rest ih =>
    have hsx : snapshot (loop x t) = snapshot t := hq [x] rest rfl
    have hpx : pressCount (loop x t) = pressCount t := by
      have h1 := pressCount_loop_mono x t
      have h2 := pressCount_runLoop_mono rest (loop x t)
      rw [runLoop_cons] at hp
      omega
    obtain ⟨s1, s2, s3⟩ := quiet_tick t x hr hsx hpx
    obtain ⟨r1, r2, r3⟩ := ih (loop x t) s3
      (fun pre post h => by
        have h1 := hq (x :: pre) post (by rw [h]; rfl)
        rw [runLoop_cons] at h1
        rw [h1, hsx])
      (by rw [runLoop_cons] at hp; rw [hp, hpx])
    rw [runLoop_cons]
    refine ⟨r1.trans s2, r2, ?_⟩
    intro pre i post h
    cases pre with
    | nil =>
      have hi : x = i := by
        have h' : x :: rest = i :: post := h
        exact (List.cons.inj h').1
      rw [← hi]
      exact s1
    | cons y pre2 =>
      have h' : x :: rest = y :: (pre2 ++ i :: post) := h
      obtain ⟨hy, hrest⟩ := List.cons.inj h'
      rw [← hy, runLoop_cons]
      exact r3 pre2 i post hrest

/-- C14: `redrawMenuIfNeeded` is idempotent; and from a reachable state in which it
has just returned, over any number of passes of `loop` that handle no press and
after each of which `currentMenu`, `selectedIndex`, `viewOffset`, `ledOn` and
`blinkMode` are as before, nothing is drawn and every redraw call returns the state
it was given unchanged. -/
theorem redraw_gating (s : State) (h : Reachable s) (inps : List Input)
    (hq : ∀ pre post, inps = pre ++ post →
      snapshot (runLoop (redrawMenuIfNeeded s) pre) = snapshot (redrawMenuIfNeeded s))
    (hp : pressCount (runLoop (redrawMenuIfNeeded s) inps) = pressCount (redrawMenuIfNeeded s)) :
    (∀ n : Nat, Nat.iterate redrawMenuIfNeeded n (redrawMenuIfNeeded s) = redrawMenuIfNeeded s) ∧
    (runLoop (redrawMenuIfNeeded s) inps).frames = (redrawMenuIfNeeded s).frames ∧
    (∀ pre i post, inps = pre ++ i :: post →
      updateSelectionFromPot i.pot (runLoop (redrawMenuIfNeeded s) pre) =
        runLoop (redrawMenuIfNeeded s) pre ∧
      redrawMenuIfNeeded (runLoop (redrawMenuIfNeeded s) pre) =
        runLoop (redrawMenuIfNeeded s) pre) := by
  have hr := (reachable_redraw_current s h).1
  obtain ⟨q1, _, q3⟩ := quiet_ticks inps (redrawMenuIfNeeded s) hr hq hp
  refine ⟨?_, q1, ?_⟩
  · intro n
    induction n with
    | zero => rfl
    | succ k ih =>
      rw [Function.iterate_succ_apply, redraw_rendered_eq _ hr]
      exact ih
  · intro pre i post hsplit
    have hpre : inps = pre ++ ([i] ++ post) := by
      rw [hsplit]
      rfl
    have hppre : pressCount (runLoop (redrawMenuIfNeeded s) pre) =
        pressCount (redrawMenuIfNeeded s) := by
      have h1 := pressCount_runLoop_mono pre (redrawMenuIfNeeded s)
      have h2 := pressCount_runLoop_mono (i :: post) (runLoop (redrawMenuIfNeeded s) pre)
      rw [← runLoop_append, ← hsplit] at h2
      omega
    obtain ⟨_, p2, _⟩ := quiet_ticks pre (redrawMenuIfNeeded s) hr
      (fun a b hab => hq a (b ++ i :: post) (by rw [hsplit, hab, List.append_assoc])) hppre
    have hred := redraw_rendered_eq _ p2
    refine ⟨?_, hred⟩
    have h3 := q3 pre i post hsplit
    by_contra hne
    have hsel : (updateSelectionFromPot i.pot (runLoop (redrawMenuIfNeeded s) pre)).selectedIndex ≠
        (runLoop (redrawMenuIfNeeded s) pre).selectedIndex :=
      fun hh => hne (pot_same_of_selectedIndex _ _ hh)
    have hreach : Reachable (runLoop (redrawMenuIfNeeded s) pre) :=
      reachable_runLoop _ pre (Reachable.op s Op.redraw h)
    have hm := menuInv_pot _ i.pot (reachable_menuInv _ hreach)
    rw [menuInv_iff] at hm
    obtain ⟨e1, e2, _⟩ := redraw_menuFields _ hm.1 hm.2.1 hm.2.2
    apply hsel
    rw [← e2]
    exact congrArg State.selectedIndex h3

/-- C14, on two idle passes after the first draw, with the potentiometer moving
inside the range of the first item. -/
theorem redraw_gating_witness :
    (runLoop (redrawMenuIfNeeded bootState)
      [tickPot 0 HIGH 10, tickPot 100 HIGH 700]).frames = (redrawMenuIfNeeded bootState).frames :=
  (redraw_gating bootState Reachable.boot [tickPot 0 HIGH 10, tickPot 100 HIGH 700]
    (by
      intro pre post hsplit
      rcases pre with _ | ⟨x, _ | ⟨y, _ | ⟨z, l⟩⟩⟩
      · rfl
      · simp only [List.cons_append, List.nil_append, List.cons.injEq] at hsplit
        rw [← hsplit.1]
        decide
      · simp only [List.cons_append, List.nil_append, List.cons.injEq] at hsplit
        rw [← hsplit.1, ← hsplit.2.1]
        decide
      · simp at hsplit)
    (by decide)).2.1

/-! ## The drawn window -/

/-- The rows drawn for each menu and selection that can be reached. -/
theorem drawRows_reachable (c : Nat) (sel : Int)
    (hc : c = MENU_MAIN ∨ c = MENU_SETTINGS ∨ c = MENU_SPEED)
    (hs : 0 ≤ sel ∧ sel < getMenuItemCount c) :
    c < menuTitles.length ∧
    (∃ items, getMenuItems c = some items ∧ (items.length : Int) = getMenuItemCount c) ∧
    (drawRows (getMenuItems c) sel (getMenuItemCount c) (0 + maxVisibleItems)
        maxVisibleItems.toNat 0 12).map Row.index =
      (List.range (min (getMenuItemCount c) (0 + maxVisibleItems) - 0).toNat).map
        (fun k : Nat => (0 : Int) + k) ∧
    (1 ≤ (drawRows (getMenuItems c) sel (getMenuItemCount c) (0 + maxVisibleItems)
        maxVisibleItems.toNat 0 12).length ∧
      ((drawRows (getMenuItems c) sel (getMenuItemCount c) (0 + maxVisibleItems)
        maxVisibleItems.toNat 0 12).length : Int) ≤ maxVisibleItems) ∧
    (∀ r ∈ drawRows (getMenuItems c) sel (getMenuItemCount c) (0 + maxVisibleItems)
        maxVisibleItems.toNat 0 12,
      (0 ≤ r.index ∧ r.index < getMenuItemCount c) ∧
      r.itemText = itemAt (getMenuItems c) r.index ∧ r.itemText.isSome = true ∧
      (r.marked = true ↔ r.index = sel)) ∧
    ((drawRows (getMenuItems c) sel (getMenuItemCount c) (0 + maxVisibleItems)
        maxVisibleItems.toNat 0 12).filter (fun r => r.marked)).map Row.index = [sel] := by
  obtain ⟨h0, h1⟩ := hs
  rcases hc with hc | hc | hc
  · subst hc
    rw [getMenuItemCount_main] at h1
    have hsel : sel = 0 ∨ sel = 1 ∨ sel = 2 := by omega
    refine ⟨by decide, ⟨_, rfl, rfl⟩, ?_⟩
    rcases hsel with e | e | e <;> subst e <;> decide
  · subst hc
    rw [getMenuItemCount_settings] at h1
    have hsel : sel = 0 ∨ sel = 1 := by omega
    refine ⟨by decide, ⟨_, rfl, rfl⟩, ?_⟩
    rcases hsel with e | e <;> subst e <;> decide
  · subst hc
    rw [getMenuItemCount_speed] at h1
    have hsel : sel = 0 ∨ sel = 1 ∨ sel = 2 ∨ sel = 3 := by omega
    refine ⟨by decide, ⟨_, rfl, rfl⟩, ?_⟩
    rcases hsel with e | e | e | e <;> subst e <;> decide

/-- C18: in a reachable state, a draw of `redrawMenuIfNeeded` reads
`menuTitles[currentMenu]` and `items[i]` inside their tables, draws the rows
`i = viewOffset, ..., min itemCount (viewOffset + maxVisibleItems) - 1` in this
order, between 1 and `maxVisibleItems` of them, and marks one row, the row
`selectedIndex`. -/
theorem draw_window_and_marker (s : State) (h : Reachable s) (hd : ¬ Rendered s) :
    ∃ f : Frame,
      (redrawMenuIfNeeded s).frames = s.frames ++ [f] ∧
      f.drawnFrom = some (snapshot (redrawMenuIfNeeded s)) ∧
      ((redrawMenuIfNeeded s).currentMenu = MENU_MAIN ∨
        (redrawMenuIfNeeded s).currentMenu = MENU_SETTINGS ∨
        (redrawMenuIfNeeded s).currentMenu = MENU_SPEED) ∧
      ((redrawMenuIfNeeded s).currentMenu < menuTitles.length ∧
        f.title = menuTitles.get? (redrawMenuIfNeeded s).currentMenu) ∧
      (∃ items, getMenuItems (redrawMenuIfNeeded s).currentMenu = some items ∧
        (items.length : Int) = getMenuItemCount (redrawMenuIfNeeded s).currentMenu) ∧
      f.rows.map Row.index =
        (List.range (min (getMenuItemCount (redrawMenuIfNeeded s).currentMenu)
            ((redrawMenuIfNeeded s).viewOffset + maxVisibleItems) -
            (redrawMenuIfNeeded s).viewOffset).toNat).map
          (fun k : Nat => (redrawMenuIfNeeded s).viewOffset + k) ∧
      (1 ≤ f.rows.length ∧ (f.rows.length : Int) ≤ maxVisibleItems) ∧
      (∀ r ∈ f.rows,
        (0 ≤ r.index ∧ r.index < getMenuItemCount (redrawMenuIfNeeded s).currentMenu) ∧
        r.itemText = itemAt (getMenuItems (redrawMenuIfNeeded s).currentMenu) r.index ∧
        r.itemText.isSome = true ∧
        (r.marked = true ↔ r.index = (redrawMenuIfNeeded s).selectedIndex)) ∧
      (f.rows.filter (fun r => r.marked)).map Row.index =
        [(redrawMenuIfNeeded s).selectedIndex] := by
  have hm := reachable_menuInv s h
  rw [menuInv_iff] at hm
  obtain ⟨m1, m2, m3⟩ := hm
  have hc : 0 < getMenuItemCount s.currentMenu := by omega
  have hcases := getMenuItemCount_pos_cases s.currentMenu hc
  have h4 := getMenuItemCount_le s.currentMenu
  have hsel : max 0 (min s.selectedIndex (getMenuItemCount s.currentMenu - 1)) =
      s.selectedIndex := by omega
  have heq := redraw_draws_eq s hd hc
  rw [hsel, m3, adjustViewOffset_small _ _ m1 m2 h4] at heq
  obtain ⟨d1, d2, d3, d4, d5, d6⟩ := drawRows_reachable s.currentMenu s.selectedIndex hcases
    ⟨m1, m2⟩
  rw [heq]
  exact ⟨_, rfl, rfl, hcases, ⟨d1, rfl⟩, d2, d3, d4, d5, d6⟩

/-- C18, on the first draw after `handleButtonPress` entered the speed menu. -/
theorem draw_window_and_marker_witness :
    ∃ f : Frame,
      (redrawMenuIfNeeded (runOps bootState [Op.pot 1023, Op.press 5, Op.press 9])).frames =
        (runOps bootState [Op.pot 1023, Op.press 5, Op.press 9]).frames ++ [f] ∧
      f.rows.map Row.index = [0, 1, 2, 3] ∧
      (f.rows.filter (fun r => r.marked)).map Row.index = [0] := by
  obtain ⟨f, e1, _, _, _, _, e6, _, _, e9⟩ :=
    draw_window_and_marker (runOps bootState [Op.pot 1023, Op.press 5, Op.press 9])
      (reachable_runOps bootState _ Reachable.boot) (fun hr => absurd hr.1 (by decide))
  exact ⟨f, e1, e6.trans (by decide), e9.trans (by decide)⟩

/-! ## Changing the blink interval -/

theorem redraw_keeps (s : State) :
    (redrawMenuIfNeeded s).currentMenu = s.currentMenu ∧
    (redrawMenuIfNeeded s).blinkMode = s.blinkMode ∧
    (redrawMenuIfNeeded s).lastBlinkTime = s.lastBlinkTime ∧
    (redrawMenuIfNeeded s).blinkInterval = s.blinkInterval ∧
    (redrawMenuIfNeeded s).ledPin = s.ledPin ∧
    (0 ≤ s.selectedIndex → s.selectedIndex < getMenuItemCount s.currentMenu →
      (redrawMenuIfNeeded s).selectedIndex = s.selectedIndex) := by
  by_cases hr : Rendered s
  · rw [redraw_rendered_eq s hr]
    exact ⟨rfl, rfl, rfl, rfl, rfl, fun _ _ => rfl⟩
  · by_cases hc : 0 < getMenuItemCount s.currentMenu
    · rw [redraw_draws_eq s hr hc]
      refine ⟨rfl, rfl, rfl, rfl, rfl, ?_⟩
      intro h0 h1
      dsimp only
      omega
    · rw [redraw_nocount s (by omega)]
      exact ⟨rfl, rfl, rfl, rfl, rfl, fun _ _ => rfl⟩

theorem press_speed_fields (now : Nat) (s : State) (hm : s.currentMenu = MENU_SPEED)
    (hi : s.selectedIndex = 0 ∨ s.selectedIndex = 1 ∨ s.selectedIndex = 2) :
    (handleButtonPress now s).blinkInterval =
      (if s.selectedIndex = 0 then 800 else if s.selectedIndex = 1 then 400 else 150) ∧
    (handleButtonPress now s).blinkMode = s.blinkMode ∧
    (handleButtonPress now s).lastBlinkTime = s.lastBlinkTime ∧
    (handleButtonPress now s).ledPin = s.ledPin := by
  rcases hi with hi | hi | hi <;>
    simp [handleButtonPress, pressSpeed, hm, hi]

/-- A pass of `loop` that handles a press on one of the first three items of the
speed menu: the state given to `handleBlinking` has the new interval and the LED
fields of the state at the start of the pass. -/
theorem loop_speed_press (s : State) (inp : Input) (hm : s.currentMenu = MENU_SPEED)
    (hk : (updateSelectionFromPot inp.pot s).selectedIndex = 0 ∨
      (updateSelectionFromPot inp.pot s).selectedIndex = 1 ∨
      (updateSelectionFromPot inp.pot s).selectedIndex = 2)
    (hp : pressCount (loop inp s) = pressCount s + 1) :
    (debounceButton inp.reading inp.now inp.nowPress
        (redrawMenuIfNeeded (updateSelectionFromPot inp.pot s))).blinkInterval =
      (if (updateSelectionFromPot inp.pot s).selectedIndex = 0 then 800
        else if (updateSelectionFromPot inp.pot s).selectedIndex = 1 then 400 else 150) ∧
    (debounceButton inp.reading inp.now inp.nowPress
        (redrawMenuIfNeeded (updateSelectionFromPot inp.pot s))).blinkMode = s.blinkMode ∧
    (debounceButton inp.reading inp.now inp.nowPress
        (redrawMenuIfNeeded (updateSelectionFromPot inp.pot s))).lastBlinkTime =
      s.lastBlinkTime ∧
    (debounceButton inp.reading inp.now inp.nowPress
        (redrawMenuIfNeeded (updateSelectionFromPot inp.pot s))).ledPin = s.ledPin := by
  obtain ⟨_, _, _, h4⟩ := loop_button inp s
  have hf : Accepts inp.reading inp.now s ∧ inp.reading = LOW := by
    by_contra hc
    rw [if_neg hc] at h4
    omega
  obtain ⟨⟨a1, a2, a3⟩, _⟩ := pot_sameButton inp.pot s
  obtain ⟨⟨b1, b2, b3⟩, _⟩ := redraw_sameButton (updateSelectionFromPot inp.pot s)
  have hacc := (accepts_congr inp.reading inp.now s
    (redrawMenuIfNeeded (updateSelectionFromPot inp.pot s))
    ⟨b1.trans a1, b2.trans a2, b3.trans a3⟩).mpr hf.1
  have hPeq := pot_eq_with inp.pot s
  have hPm : (updateSelectionFromPot inp.pot s).currentMenu = MENU_SPEED := by
    rw [hPeq]
    exact hm
  have hP2 : (updateSelectionFromPot inp.pot s).blinkMode = s.blinkMode ∧
      (updateSelectionFromPot inp.pot s).lastBlinkTime = s.lastBlinkTime ∧
      (updateSelectionFromPot inp.pot s).blinkInterval = s.blinkInterval ∧
      (updateSelectionFromPot inp.pot s).ledPin = s.ledPin := by
    rw [hPeq]
    exact ⟨rfl, rfl, rfl, rfl⟩
  obtain ⟨r1, r2, r3, _, r5, r6⟩ := redraw_keeps (updateSelectionFromPot inp.pot s)
  have hRsel : (redrawMenuIfNeeded (updateSelectionFromPot inp.pot s)).selectedIndex =
      (updateSelectionFromPot inp.pot s).selectedIndex := by
    apply r6
    · omega
    · rw [hPm, getMenuItemCount_speed]
      omega
  obtain ⟨p1, p2, p3, p4⟩ := press_speed_fields inp.nowPress
    (withButton (redrawMenuIfNeeded (updateSelectionFromPot inp.pot s))
      (redrawMenuIfNeeded (updateSelectionFromPot inp.pot s)).lastButtonState
      (redrawMenuIfNeeded (updateSelectionFromPot inp.pot s)).lastButtonTime LOW)
    (r1.trans hPm) (by
      show (redrawMenuIfNeeded (updateSelectionFromPot inp.pot s)).selectedIndex = 0 ∨
        (redrawMenuIfNeeded (updateSelectionFromPot inp.pot s)).selectedIndex = 1 ∨
        (redrawMenuIfNeeded (updateSelectionFromPot inp.pot s)).selectedIndex = 2
      rw [hRsel]
      exact hk)
  rw [debounceButton_fire _ _ _ _ hacc hf.2]
  refine ⟨?_, ?_, ?_, ?_⟩
  · refine p1.trans ?_
    show (if (redrawMenuIfNeeded (updateSelectionFromPot inp.pot s)).selectedIndex = 0 then 800
      else if (redrawMenuIfNeeded (updateSelectionFromPot inp.pot s)).selectedIndex = 1 then 400
      else 150) = _
    rw [hRsel]
  · exact p2.trans (r2.trans hP2.1)
  · exact p3.trans (r3.trans hP2.2.1)
  · exact p4.trans (r5.trans hP2.2.2.2)

set_option maxRecDepth 100000

/-- C11, as stated, fails: in the state after `speedMenuRun` blinking is on with the
interval 500 since time 60; the pass at time 480 handles a press on (SPEED, 2) and the
LED is toggled in it, while 480 - 60 is less than the old interval and the same pass
without the press leaves the LED as it is. -/
theorem interval_change_toggles_early :
    Reachable (runLoop bootState speedMenuRun) ∧
    (runLoop bootState speedMenuRun).blinkMode = true ∧
    (runLoop bootState speedMenuRun).blinkInterval = 500 ∧
    pressCount (loop (tickPot 500 LOW 480) (runLoop bootState speedMenuRun)) =
      pressCount (runLoop bootState speedMenuRun) + 1 ∧
    (loop (tickPot 500 LOW 480) (runLoop bootState speedMenuRun)).blinkInterval = 150 ∧
    (loop (tickPot 500 LOW 480) (runLoop bootState speedMenuRun)).ledPin ≠
      (runLoop bootState speedMenuRun).ledPin ∧
    ¬ (usub (tickPot 500 LOW 480).nowBlink (runLoop bootState speedMenuRun).lastBlinkTime ≥
      (runLoop bootState speedMenuRun).blinkInterval) ∧
    (loop (tickPot 500 HIGH 480) (runLoop bootState speedMenuRun)).ledPin =
      (runLoop bootState speedMenuRun).ledPin ∧
    (handleBlinking 480 (runLoop bootState speedMenuRun)).ledPin =
      (runLoop bootState speedMenuRun).ledPin := by
  refine ⟨reachable_runLoop bootState speedMenuRun Reachable.boot, ?_⟩
  decide

/-- C11, amended: with `blinkMode` true, in a pass of `loop` that handles a press on
(SPEED, 0), (SPEED, 1) or (SPEED, 2), the press itself leaves the LED pin as it is,
and the `handleBlinking` call of the same pass toggles the LED exactly when
`now - lastBlinkTime` is at least the new `blinkInterval`; so when the new interval is
not shorter than the old one, only if the elapsed time is at least the old interval. -/
theorem interval_change_toggle (s : State) (inp : Input)
    (hb : s.blinkMode = true) (hm : s.currentMenu = MENU_SPEED)
    (hk : (updateSelectionFromPot inp.pot s).selectedIndex = 0 ∨
      (updateSelectionFromPot inp.pot s).selectedIndex = 1 ∨
      (updateSelectionFromPot inp.pot s).selectedIndex = 2)
    (hp : pressCount (loop inp s) = pressCount s + 1) :
    (loop inp s).blinkInterval =
      (if (updateSelectionFromPot inp.pot s).selectedIndex = 0 then 800
        else if (updateSelectionFromPot inp.pot s).selectedIndex = 1 then 400 else 150) ∧
    (debounceButton inp.reading inp.now inp.nowPress
      (redrawMenuIfNeeded (updateSelectionFromPot inp.pot s))).ledPin = s.ledPin ∧
    ((loop inp s).ledPin = (!s.ledPin) ↔
      usub inp.nowBlink s.lastBlinkTime ≥ (loop inp s).blinkInterval) ∧
    ((loop inp s).blinkInterval ≥ s.blinkInterval → (loop inp s).ledPin = (!s.ledPin) →
      usub inp.nowBlink s.lastBlinkTime ≥ s.blinkInterval) := by
  obtain ⟨d1, d2, d3, d4⟩ := loop_speed_press s inp hm hk hp
  have hint : (loop inp s).blinkInterval =
      (debounceButton inp.reading inp.now inp.nowPress
        (redrawMenuIfNeeded (updateSelectionFromPot inp.pot s))).blinkInterval := by
    rw [loop_eq]
    rcases blink_cases inp.nowBlink (debounceButton inp.reading inp.now inp.nowPress
      (redrawMenuIfNeeded (updateSelectionFromPot inp.pot s))) with e | ⟨_, e⟩ <;> rw [e]
  have hiff : (loop inp s).ledPin = (!s.ledPin) ↔
      usub inp.nowBlink s.lastBlinkTime ≥ (loop inp s).blinkInterval := by
    rw [hint, loop_eq]
    by_cases hge : usub inp.nowBlink s.lastBlinkTime ≥
        (debounceButton inp.reading inp.now inp.nowPress
          (redrawMenuIfNeeded (updateSelectionFromPot inp.pot s))).blinkInterval
    · rw [handleBlinking_due _ _ (d2.trans hb) (by rw [d3]; exact hge)]
      dsimp only
      rw [d4]
      exact ⟨fun _ => hge, fun _ => rfl⟩
    · rw [handleBlinking_early _ _ (by rw [d3]; omega), d4]
      constructor
      · intro hcontra
        cases hl : s.ledPin <;> rw [hl] at hcontra <;> exact absurd hcontra (by decide)
      · intro hcontra
        exact absurd hcontra hge
  refine ⟨hint.trans d1, d4, hiff, ?_⟩
  intro hmono htog
  exact Nat.le_trans hmono (hiff.mp htog)

/-- C11 amended, on the press of (SPEED, 2) at time 480 after `speedMenuRun`. -/
theorem interval_change_toggle_witness :
    ((loop (tickPot 500 LOW 480) (runLoop bootState speedMenuRun)).ledPin =
        (!(runLoop bootState speedMenuRun).ledPin) ↔
      usub (tickPot 500 LOW 480).nowBlink (runLoop bootState speedMenuRun).lastBlinkTime ≥
        (loop (tickPot 500 LOW 480) (runLoop bootState speedMenuRun)).blinkInterval) :=
  (interval_change_toggle (runLoop bootState speedMenuRun) (tickPot 500 LOW 480)
    (by decide) (by decide) (by decide) (by decide)).2.2.1

end Menu
